import Mathlib

/-!
SPI decoders for the HP 16700 Tool Development Kit

A shallow embedding of the two per-sample state machines of the repository,
`handleState` of `SPI-tdk.c` (clock framed, optionally select framed through
`useSS`) and `handleState` of `SPI-tdk_SS.c` (select framed, one byte per
assertion), together with the drain loop of `execute`.

* C unsigned 8 bit fields are natural numbers, every store is reduced `% 256`;
  `unsigned int` shifts are reduced `% 2 ^ 32`; `long long` times are integers
  (the code never does arithmetic on them).
* The two output data sets are append-only.  Every `replaceNext` on a data set
  together with the label values written for that row is one `Emit`, kept in
  call order, so that the data stream and the event stream are the two
  projections of one emission list.  `execute` creates both data sets with one
  row per sample and every call of `handleState` appends at most one row to
  each (`handleState_rows_le`, `handleState_rows_le_ss`), so the rows never run
  out.
* `newDecoder` takes the content of the fresh `malloc` block as a parameter;
  the fields it does not assign keep that content.
-/

namespace SPI

/-- One row of the sample feed, as read by the `while` loop of `execute`. -/
structure Sample where
  time : Int
  sck : Nat
  mosi : Nat
  miso : Nat
  ss : Nat
deriving DecidableEq, Repr

/-- The anonymous colour enumeration of `SPI-tdk.c`. -/
inductive color where
  | white | white2 | scarlet | pumpkin | yellow | lime | turquoise | lavender
deriving DecidableEq, Repr

/-- A row of the data set `SPIData`: its time tag and the two label values
`SPI_MOSI`, `SPI_MISO`, with the colours set for them (if any). -/
structure DataRow where
  time : Int
  mosi : Nat
  miso : Nat
  mosiColor : Option color
  misoColor : Option color
deriving DecidableEq, Repr

/-- A row of the data set `SPIEvents`: its time tag and the text label
`SPI_EVENT`, with the colour set for it (if any). -/
structure EventRow where
  time : Int
  text : String
  color : Option color
deriving DecidableEq, Repr

/-- One appended row, of either data set, in the order of the calls. -/
inductive Emit where
  | data (r : DataRow)
  | event (e : EventRow)
deriving DecidableEq, Repr

/-- The time tag of an appended row. -/
def Emit.time : Emit → Int
  | .data r => r.time
  | .event e => e.time

/-- The rows appended to `SPIData`, in append order. -/
def dataStream (tr : List Emit) : List DataRow :=
  tr.filterMap fun e => match e with
    | .data r => some r
    | .event _ => none

/-- The rows appended to `SPIEvents`, in append order. -/
def eventStream (tr : List Emit) : List EventRow :=
  tr.filterMap fun e => match e with
    | .data _ => none
    | .event r => some r

/-- The expression `byte |= bit << (7 - pos)` on a `uint8_t` accumulator with an
`unsigned int` bit.  The subtraction is the truncated one of the naturals; the
code only evaluates it with `pos ≤ 7`. -/
def orBit (byte bit pos : Nat) : Nat :=
  (byte ||| (bit <<< (7 - pos)) % 2 ^ 32) % 256

/-- The most recent `"START"` or `"STOP"` event of an emission list. -/
def lastFrame : List Emit → Option EventRow
  | [] => none
  | .event e :: rest =>
    match lastFrame rest with
    | some f => some f
    | none => if e.text = "START" ∨ e.text = "STOP" then some e else none
  | .data _ :: rest => lastFrame rest

/-- A sample with the same four levels and another time tag. -/
def Sample.dup (s : Sample) (t : Int) : Sample := { s with time := t }

end SPI

namespace SPItdk
open SPI

/-- The enumeration `conditions` of `SPI-tdk.c`. -/
inductive conditions where
  | IDLE | READ_DATA | INVALID
deriving DecidableEq, Repr

/-- The structure `decoder` of `SPI-tdk.c`. -/
structure decoder where
  state : conditions
  sck : Nat
  sckPrev : Nat
  mosi : Nat
  miso : Nat
  ss : Nat
  pos : Nat
  byte_mosi : Nat
  byte_miso : Nat
  time : Int
deriving DecidableEq, Repr

/-- The function `newDecoder` of `SPI-tdk.c`: `malloc` returns memory of
arbitrary content `junk`, of which five fields are then assigned. -/
def newDecoder (junk : decoder) : decoder :=
  { junk with state := .IDLE, sck := 0, sckPrev := 0, ss := 1, time := 0 }

/-- The two rows written by either stop branch. -/
def stopRows (time : Int) : List Emit :=
  [.data ⟨time, 0, 0, some .scarlet, some .scarlet⟩, .event ⟨time, "STOP", some .scarlet⟩]

/-- The row written by either start branch. -/
def startRow (time : Int) : Emit := .event ⟨time, "START", some .lime⟩

/-- Lines 250-262: the clock stop condition. -/
def stopClock (s : Sample) (useSS : Int) (c : decoder × List Emit) : decoder × List Emit :=
  if c.1.sckPrev = 1 ∧ c.1.sck = 0 ∧ s.sck = 0 ∧ useSS = 0 then
    ({ c.1 with state := .IDLE }, c.2 ++ stopRows s.time)
  else c

/-- Lines 263-275: the select stop condition. -/
def stopSelect (s : Sample) (useSS : Int) (c : decoder × List Emit) : decoder × List Emit :=
  if c.1.ss = 0 ∧ s.ss = 1 ∧ useSS = 1 then
    ({ c.1 with state := .IDLE }, c.2 ++ stopRows s.time)
  else c

/-- Lines 278-288: the clock start condition. -/
def startClock (s : Sample) (useSS : Int) (c : decoder × List Emit) : decoder × List Emit :=
  if c.1.sckPrev = 0 ∧ c.1.sck = 0 ∧ s.sck = 1 ∧ useSS = 0 then
    ({ c.1 with state := .READ_DATA, pos := 0, byte_mosi := 0, byte_miso := 0 },
      if c.1.state = .IDLE then c.2 ++ [startRow s.time] else c.2)
  else c

/-- Lines 289-299: the select start condition. -/
def startSelect (s : Sample) (useSS : Int) (c : decoder × List Emit) : decoder × List Emit :=
  if c.1.ss = 1 ∧ s.ss = 0 ∧ useSS = 1 then
    ({ c.1 with state := .READ_DATA, pos := 0, byte_mosi := 0, byte_miso := 0 },
      if c.1.state = .IDLE then c.2 ++ [startRow s.time] else c.2)
  else c

/-- Lines 302-321: capture of one bit on a rising clock edge, and the byte
completion. -/
def readBit (s : Sample) (c : decoder × List Emit) : decoder × List Emit :=
  if c.1.state = .READ_DATA ∧ s.sck = 1 ∧ c.1.sck ≠ 1 then
    let t := if c.1.pos = 0 then s.time else c.1.time
    let bm := orBit c.1.byte_mosi s.mosi c.1.pos
    let bi := orBit c.1.byte_miso s.miso c.1.pos
    let p := (c.1.pos + 1) % 256
    if p = 8 then
      ({ c.1 with time := t, pos := 0, byte_mosi := 0, byte_miso := 0 },
        c.2 ++ [.data ⟨t, bm, bi, some .yellow, some .lavender⟩])
    else
      ({ c.1 with time := t, pos := p, byte_mosi := bm, byte_miso := bi }, c.2)
  else c

/-- Lines 325-327: the stored levels are refreshed. -/
def update (s : Sample) (c : decoder × List Emit) : decoder × List Emit :=
  ({ c.1 with ss := s.ss % 256, sckPrev := c.1.sck, sck := s.sck % 256 }, c.2)

/-- Lines 249-299: the stop and start conditions, in source order. -/
def framing (d : decoder) (s : Sample) (useSS : Int) : decoder × List Emit :=
  startSelect s useSS (startClock s useSS (stopSelect s useSS (stopClock s useSS (d, []))))

/-- The function `handleState` of `SPI-tdk.c` (lines 239-328): the new decoder
state and the rows appended by this call, in call order. -/
def handleState (d : decoder) (s : Sample) (useSS : Int) : decoder × List Emit :=
  if d.sckPrev = s.sck ∧ d.sck = s.sck then (d, [])
  else update s (readBit s (framing d s useSS))

/-- The drain loop of `execute` (lines 181-184), from decoder state `d`. -/
def run (useSS : Int) : decoder → List Sample → decoder × List Emit
  | d, [] => (d, [])
  | d, s :: rest =>
    ((run useSS (handleState d s useSS).1 rest).1,
      (handleState d s useSS).2 ++ (run useSS (handleState d s useSS).1 rest).2)

/-- A whole decode pass: `newDecoder` followed by the drain loop. -/
def decode (useSS : Int) (junk : decoder) (samples : List Sample) : decoder × List Emit :=
  run useSS (newDecoder junk) samples

end SPItdk

namespace SPItdkSS
open SPI

/-- The enumeration `conditions` of `SPI-tdk_SS.c`. -/
inductive conditions where
  | IDLE | READ_ADDR | READ_RW | READ_DATA | READ_ACK | INVALID
deriving DecidableEq, Repr

/-- The structure `decoder` of `SPI-tdk_SS.c`. -/
structure decoder where
  state : conditions
  sck : Nat
  mosi : Nat
  miso : Nat
  ss : Nat
  pos : Nat
  byte_mosi : Nat
  byte_miso : Nat
deriving DecidableEq, Repr

/-- The function `newDecoder` of `SPI-tdk_SS.c`: `malloc` returns memory of
arbitrary content `junk`, of which five fields are then assigned. -/
def newDecoder (junk : decoder) : decoder :=
  { junk with state := .IDLE, sck := 0, mosi := 1, miso := 1, ss := 1 }

/-- Lines 268-271: the stored levels are refreshed. -/
def update (s : Sample) (c : decoder × List Emit) : decoder × List Emit :=
  ({ c.1 with ss := s.ss % 256, sck := s.sck % 256, mosi := s.mosi % 256,
              miso := s.miso % 256 }, c.2)

/-- The function `handleState` of `SPI-tdk_SS.c` (lines 216-272): the new
decoder state and the rows appended by this call, in call order. -/
def handleState (d : decoder) (s : Sample) : decoder × List Emit :=
  if d.ss = s.ss ∧ s.ss = 1 then (d, [])
  else if d.ss = 1 ∧ s.ss = 0 then
    update s ({ d with state := .READ_DATA, pos := 0, byte_mosi := 0, byte_miso := 0 },
      if d.state = .IDLE then [.event ⟨s.time, "START", none⟩] else [])
  else if d.ss = 0 ∧ s.ss = 1 then
    update s ({ d with state := .IDLE }, [.event ⟨s.time, "STOP", none⟩])
  else if d.state = .READ_DATA ∧ s.sck = 1 then
    let bm := orBit d.byte_mosi s.mosi d.pos
    let bi := orBit d.byte_miso s.miso d.pos
    let p := (d.pos + 1) % 256
    if p = 8 then
      update s ({ d with pos := 0, byte_mosi := 0, byte_miso := 0, state := .IDLE },
        [.data ⟨s.time, bm, bi, none, none⟩, .event ⟨s.time, "DATA", none⟩])
    else
      update s ({ d with pos := p, byte_mosi := bm, byte_miso := bi }, [])
  else update s (d, [])

/-- The drain loop of `execute` (lines 158-161), from decoder state `d`. -/
def run : decoder → List Sample → decoder × List Emit
  | d, [] => (d, [])
  | d, s :: rest =>
    ((run (handleState d s).1 rest).1,
      (handleState d s).2 ++ (run (handleState d s).1 rest).2)

/-- A whole decode pass: `newDecoder` followed by the drain loop. -/
def decode (junk : decoder) (samples : List Sample) : decoder × List Emit :=
  run (newDecoder junk) samples

end SPItdkSS

/-! ## Predicates used in the statements and invariants -/

namespace SPI

/-- The accumulator after capturing the given bits, first bit at index 0, as
`handleState` does with `byte |= bit << (7 - pos); pos++` from a cleared
accumulator. -/
def assemble (bits : List Nat) : Nat :=
  (bits.foldl (fun (acc : Nat × Nat) b => (orBit acc.1 b acc.2, acc.2 + 1)) (0, 0)).1

/-- No `"START"` event among the rows. -/
def startFree (b : List Emit) : Prop := ∀ e ∈ eventStream b, e.text ≠ "START"

/-- Scan of an emission list with the flag "a data row was seen since the last
`"START"`": no data row is met while the flag is set. -/
def frameCheck : Bool → List Emit → Bool
  | _, [] => true
  | seen, .data _ :: rest => !seen && frameCheck true rest
  | seen, .event e :: rest =>
    if e.text = "START" then frameCheck false rest else frameCheck seen rest

/-- The flag of `frameCheck` after an emission list. -/
def frameFlag : Bool → List Emit → Bool
  | seen, [] => seen
  | _, .data _ :: rest => frameFlag true rest
  | seen, .event e :: rest =>
    if e.text = "START" then frameFlag false rest else frameFlag seen rest

/-- The sample sequence of a list of clock pulses, each a sample taken while
the clock is high followed by one taken while it is low. -/
def samplesOf : List (Sample × Sample) → List Sample
  | [] => []
  | p :: ps => p.1 :: p.2 :: samplesOf ps

/-- The data rows the bit-order rule of the spec prescribes for a sequence of
clock-high samples: one row per full group of eight, time tagged with the first
sample of the group, first sampled bit most significant. -/
def expectedBytes : List Sample → List DataRow
  | b7 :: b6 :: b5 :: b4 :: b3 :: b2 :: b1 :: b0 :: rest =>
    ⟨b7.time,
      b7.mosi * 128 + b6.mosi * 64 + b5.mosi * 32 + b4.mosi * 16 + b3.mosi * 8 + b2.mosi * 4 +
        b1.mosi * 2 + b0.mosi * 1,
      b7.miso * 128 + b6.miso * 64 + b5.miso * 32 + b4.miso * 16 + b3.miso * 8 + b2.miso * 4 +
        b1.miso * 2 + b0.miso * 1,
      some .yellow, some .lavender⟩ :: expectedBytes rest
  | _ => []

/-- A data row written by the byte completion of `SPI-tdk.c` (coloured yellow),
as opposed to the zero row written with a `"STOP"` (coloured scarlet). -/
def DataRow.isByte (r : DataRow) : Prop := r.mosiColor = some .yellow

instance (r : DataRow) : Decidable r.isByte := by
  unfold DataRow.isByte; infer_instance

/-- Frame bracketing of an emission list: every byte row is preceded by a
`"START"` as most recent frame event, time tagged not after the byte row, and
every `"STOP"` appended after the byte row is time tagged strictly later. -/
def Bracketed (tr : List Emit) : Prop :=
  ∀ pre r post, tr = pre ++ Emit.data r :: post → r.isByte →
    (∃ e, lastFrame pre = some e ∧ e.text = "START" ∧ e.time ≤ r.time) ∧
    (∀ e ∈ eventStream post, e.text = "STOP" → r.time < e.time)

/-- The number of samples taken while the clock reads 1. -/
def clockHighCount (samples : List Sample) : Nat := samples.countP (fun s => s.sck = 1)

/-- The number of byte rows among the rows appended. -/
def byteCount (tr : List Emit) : Nat := (dataStream tr).countP (fun r => r.isByte)

/-- The number of `"STOP"` events among the rows appended. -/
def stopCount (tr : List Emit) : Nat := (eventStream tr).countP (fun e => e.text = "STOP")

/-- The event rows strictly alternate between `"START"` and `"STOP"`, beginning
with `"START"`: every text is one of the two, consecutive texts differ and the
first, if any, is `"START"`. -/
def Alternates (ev : List EventRow) : Prop :=
  List.Chain' (fun a b => a.text ≠ b.text) ev ∧
  (∀ e ∈ ev, e.text = "START" ∨ e.text = "STOP") ∧
  (∀ e, ev.head? = some e → e.text = "START")

/-- No clock-low sample stands alone between two clock-high samples. -/
def NoShortLow (samples : List Sample) : Prop :=
  ∀ a x y z b, samples = a ++ x :: y :: z :: b → ¬ (x.sck = 1 ∧ y.sck = 0 ∧ z.sck = 1)

/-- Decision procedure for `NoShortLow`: scan for a clock-low sample that
stands alone between two clock-high samples. -/
def noShortLowB : List Sample → Bool
  | x :: y :: z :: rest =>
    !(decide (x.sck = 1) && decide (y.sck = 0) && decide (z.sck = 1)) && noShortLowB (y :: z :: rest)
  | _ => true

/-- A capture of one select assertion with four clock pulses (MOSI 1,0,1,0),
a release and a new assertion of select while the clock idles low, and four
more clock pulses (MOSI 1,1,1,1). -/
def glitchSamples : List Sample :=
  [⟨1, 1, 1, 0, 0⟩, ⟨2, 0, 0, 0, 0⟩, ⟨3, 1, 0, 0, 0⟩, ⟨4, 0, 0, 0, 0⟩,
   ⟨5, 1, 1, 0, 0⟩, ⟨6, 0, 0, 0, 0⟩, ⟨7, 1, 0, 0, 0⟩, ⟨8, 0, 0, 0, 0⟩,
   ⟨9, 0, 0, 0, 0⟩, ⟨10, 0, 0, 0, 1⟩, ⟨11, 0, 0, 0, 1⟩, ⟨12, 0, 0, 0, 0⟩,
   ⟨13, 1, 1, 0, 0⟩, ⟨14, 0, 0, 0, 0⟩, ⟨15, 1, 1, 0, 0⟩, ⟨16, 0, 0, 0, 0⟩,
   ⟨17, 1, 1, 0, 0⟩, ⟨18, 0, 0, 0, 0⟩, ⟨19, 1, 1, 0, 0⟩]

/-- Every row appended so far is time tagged at most `T`, and each stream is in
non-decreasing time order. -/
def StreamsOrdered (T : Int) (tr : List Emit) : Prop :=
  (∀ e ∈ tr, e.time ≤ T) ∧
  ((dataStream tr).map DataRow.time).Pairwise (· ≤ ·) ∧
  ((eventStream tr).map EventRow.time).Pairwise (· ≤ ·)

end SPI

namespace SPItdk
open SPI

/-- Either stop condition of `SPI-tdk.c` holds for the stored levels and the
new sample. -/
def isStop (d : decoder) (s : Sample) (useSS : Int) : Prop :=
  (d.sckPrev = 1 ∧ d.sck = 0 ∧ s.sck = 0 ∧ useSS = 0) ∨ (d.ss = 0 ∧ s.ss = 1 ∧ useSS = 1)

/-- Either start condition of `SPI-tdk.c` holds for the stored levels and the
new sample. -/
def isStart (d : decoder) (s : Sample) (useSS : Int) : Prop :=
  (d.sckPrev = 0 ∧ d.sck = 0 ∧ s.sck = 1 ∧ useSS = 0) ∨ (d.ss = 1 ∧ s.ss = 0 ∧ useSS = 1)

instance (d : decoder) (s : Sample) (useSS : Int) : Decidable (isStop d s useSS) := by
  unfold isStop; infer_instance

instance (d : decoder) (s : Sample) (useSS : Int) : Decidable (isStart d s useSS) := by
  unfold isStart; infer_instance

/-- The call of `handleState` is ignored by the no-change filter. -/
def isFiltered (d : decoder) (s : Sample) : Prop := d.sckPrev = s.sck ∧ d.sck = s.sck

instance (d : decoder) (s : Sample) : Decidable (isFiltered d s) := by
  unfold isFiltered; infer_instance

/-- The invariant behind C9 for `SPI-tdk.c`: the state is never `INVALID`, and
while it is `READ_DATA` the most recent frame event is a `"START"`. -/
def StartInv (d : decoder) (tr : List Emit) : Prop :=
  d.state ≠ .INVALID ∧
    (d.state = .READ_DATA → ∃ e, lastFrame tr = some e ∧ e.text = "START")

/-- The invariant behind C7 for `SPI-tdk.c`: the streams are ordered, and while
a byte is under way its latched start time is not before any data row and not
after the last sample. -/
def TimeInv (T : Int) (d : decoder) (tr : List Emit) : Prop :=
  StreamsOrdered T tr ∧
  (d.state = .READ_DATA → d.pos ≠ 0 → d.time ≤ T ∧ ∀ r ∈ dataStream tr, r.time ≤ d.time)

/-- The pulse `p` has clock level 1 then 0 and data levels in {0,1} while the
clock is high. -/
def PulseOK (p : Sample × Sample) : Prop :=
  p.1.sck = 1 ∧ p.2.sck = 0 ∧ p.1.mosi ≤ 1 ∧ p.1.miso ≤ 1

instance (p : Sample × Sample) : Decidable (PulseOK p) := by
  unfold PulseOK; infer_instance

/-- The call of `handleState` on sample `s` from state `d` captures a bit while
the bit index is 0 (and so latches `s.time` as the byte start time). -/
def latches (useSS : Int) (d : decoder) (s : Sample) : Prop :=
  ¬ isFiltered d s ∧ (framing d s useSS).1.state = .READ_DATA ∧ s.sck = 1 ∧ d.sck ≠ 1 ∧
    (framing d s useSS).1.pos = 0

/-- The invariant behind C2: while a byte is under way, the latched time is the
time of the most recent sample captured at bit index 0. -/
def LatchInv (useSS : Int) (d0 : decoder) (pre : List Sample) (d : decoder) : Prop :=
  d = (run useSS d0 pre).1 ∧
  (d.state = .READ_DATA → d.pos ≠ 0 →
    ∃ a y b, pre = a ++ y :: b ∧ latches useSS (run useSS d0 a).1 y ∧
      (∀ b1 z b2, b = b1 ++ z :: b2 → ¬ latches useSS (run useSS d0 (a ++ y :: b1)).1 z) ∧
      d.time = y.time)

/-- The invariant behind C3: the time bounds of `TimeInv`, and while the state
is `READ_DATA` the most recent frame event is a `"START"` not after the latched
byte start time; all byte rows appended so far are bracketed. -/
def BracketInv (T : Int) (d : decoder) (tr : List Emit) : Prop :=
  TimeInv T d tr ∧ d.state ≠ .INVALID ∧
  (d.state = .READ_DATA →
    ∃ e, lastFrame tr = some e ∧ e.text = "START" ∧ (d.pos ≠ 0 → e.time ≤ d.time)) ∧
  Bracketed tr

/-- Two decoder states that `handleState` with `useSS = 0` cannot tell apart:
they agree on every field it reads, except that the older stored clock level
may differ while the newer one is 1. -/
def SimClock (d e : decoder) : Prop :=
  d.state = e.state ∧ d.sck = e.sck ∧ (d.sckPrev = e.sckPrev ∨ d.sck = 1) ∧ d.pos = e.pos ∧
    d.byte_mosi = e.byte_mosi ∧ d.byte_miso = e.byte_miso ∧ d.time = e.time

/-- The phase invariant of `SPI-tdk.c` with `useSS = 0`: the state is `IDLE`
exactly when both stored clock levels are 0. -/
def ClockPhase (d : decoder) : Prop :=
  (d.state = .IDLE ↔ d.sckPrev = 0 ∧ d.sck = 0) ∧ d.state ≠ .INVALID ∧ d.sckPrev ≤ 1 ∧ d.sck ≤ 1

/-- The phase invariant of `SPI-tdk.c` with `useSS = 1`: the state is `IDLE`
exactly when the stored select level is 1. -/
def SelectPhase (d : decoder) : Prop :=
  (d.state = .IDLE ↔ d.ss = 1) ∧ d.state ≠ .INVALID ∧ d.ss ≤ 1

/-- The event stream alternates and its last row matches the state. -/
def AltInv (d : decoder) (tr : List Emit) : Prop :=
  Alternates (eventStream tr) ∧
  (d.state = .READ_DATA → ∃ e, (eventStream tr).getLast? = some e ∧ e.text = "START") ∧
  (d.state = .IDLE → ∀ e, (eventStream tr).getLast? = some e → e.text = "STOP")

/-- The invariant behind C17: the stored clock levels are those of the last two
samples, the bit index is at most 1 while reading and no byte row has been
appended. -/
def SlowClockInv (pre : List Sample) (d : decoder) (tr : List Emit) : Prop :=
  ClockPhase d ∧
  (d.sck = 1 → ∃ a x, pre = a ++ [x] ∧ x.sck = 1) ∧
  (d.sckPrev = 1 → d.sck = 0 → ∃ a x y, pre = a ++ [x, y] ∧ x.sck = 1 ∧ y.sck = 0) ∧
  (d.state = .READ_DATA → d.pos ≤ 1) ∧ byteCount tr = 0

end SPItdk

namespace SPItdkSS
open SPI

/-- The invariant behind C9 for `SPI-tdk_SS.c`: the state is `IDLE` or
`READ_DATA`, and while it is `READ_DATA` the most recent frame event is a
`"START"`. -/
def StartInv (d : decoder) (tr : List Emit) : Prop :=
  (d.state = .IDLE ∨ d.state = .READ_DATA) ∧
    (d.state = .READ_DATA → ∃ e, lastFrame tr = some e ∧ e.text = "START")

/-- The invariant behind C6: the state is `IDLE` or `READ_DATA`, no two data
rows have been appended without a `"START"` between them, and while the state is
`READ_DATA` no data row has been appended since the last `"START"`. -/
def FrameInv (d : decoder) (tr : List Emit) : Prop :=
  (d.state = .IDLE ∨ d.state = .READ_DATA) ∧ frameCheck false tr = true ∧
    (d.state = .READ_DATA → frameFlag false tr = false)

end SPItdkSS

/-! ## General facts about the drain loops -/

namespace SPI

theorem lastFrame_append (a b : List Emit) :
    lastFrame (a ++ b) = match lastFrame b with
      | some f => some f
      | none => lastFrame a := by
  induction a with
  | nil => cases h : lastFrame b <;> simp [h, lastFrame]
  | cons x a ih =>
    cases x with
    | data r => simpa [lastFrame] using ih
    | event e =>
      have h1 : lastFrame (Emit.event e :: a ++ b) = match lastFrame (a ++ b) with
          | some f => some f
          | none => if e.text = "START" ∨ e.text = "STOP" then some e else none := rfl
      have h2 : lastFrame (Emit.event e :: a) = match lastFrame a with
          | some f => some f
          | none => if e.text = "START" ∨ e.text = "STOP" then some e else none := rfl
      rw [h1, h2, ih]
      cases lastFrame b <;> simp

theorem lastFrame_mem {tr : List Emit} {e : EventRow} (h : lastFrame tr = some e) :
    e ∈ eventStream tr ∧ (e.text = "START" ∨ e.text = "STOP") := by
  induction tr with
  | nil => simp [lastFrame] at h
  | cons x tr ih =>
    cases x with
    | data r =>
      simp only [lastFrame] at h
      have := ih h
      simpa [eventStream] using this
    | event f =>
      simp only [lastFrame] at h
      cases hl : lastFrame tr with
      | some g =>
        rw [hl] at h
        simp only [Option.some.injEq] at h
        subst h
        have := ih hl
        refine ⟨?_, this.2⟩
        have h1 := this.1
        simp only [eventStream] at h1 ⊢
        simp [List.filterMap_cons, h1]
      | none =>
        rw [hl] at h
        by_cases hf : f.text = "START" ∨ f.text = "STOP"
        · simp only [hf, if_true, Option.some.injEq] at h
          subst h
          exact ⟨by simp [eventStream, List.filterMap_cons], hf⟩
        · simp [hf] at h

end SPI

namespace SPItdk
open SPI

theorem run_append (useSS : Int) (d : decoder) (a b : List Sample) :
    run useSS d (a ++ b) =
      ((run useSS (run useSS d a).1 b).1, (run useSS d a).2 ++ (run useSS (run useSS d a).1 b).2) := by
  induction a generalizing d with
  | nil => simp [run]
  | cons s a ih => simp [run, ih, List.append_assoc]

/-- Invariant principle for the drain loop: a property of the samples consumed,
the decoder state and the rows appended so far that every call of
`handleState` preserves holds after the loop. -/
theorem run_inv (useSS : Int) (P : List Sample → decoder → List Emit → Prop)
    (hstep : ∀ pre d tr s, P pre d tr →
      P (pre ++ [s]) (handleState d s useSS).1 (tr ++ (handleState d s useSS).2)) :
    ∀ samples pre d tr, P pre d tr →
      P (pre ++ samples) (run useSS d samples).1 (tr ++ (run useSS d samples).2) := by
  intro samples
  induction samples with
  | nil => intro pre d tr h; simpa [run] using h
  | cons s rest ih =>
    intro pre d tr h
    have h1 := ih _ _ _ (hstep pre d tr s h)
    simpa [run, List.append_assoc] using h1

end SPItdk

namespace SPItdkSS
open SPI

theorem run_append_ss (d : decoder) (a b : List Sample) :
    run d (a ++ b) = ((run (run d a).1 b).1, (run d a).2 ++ (run (run d a).1 b).2) := by
  induction a generalizing d with
  | nil => simp [run]
  | cons s a ih => simp [run, ih, List.append_assoc]

/-- Invariant principle for the drain loop of `SPI-tdk_SS.c`. -/
theorem run_inv_ss (P : List Sample → decoder → List Emit → Prop)
    (hstep : ∀ pre d tr s, P pre d tr →
      P (pre ++ [s]) (handleState d s).1 (tr ++ (handleState d s).2)) :
    ∀ samples pre d tr, P pre d tr →
      P (pre ++ samples) (run d samples).1 (tr ++ (run d samples).2) := by
  intro samples
  induction samples with
  | nil => intro pre d tr h; simpa [run] using h
  | cons s rest ih =>
    intro pre d tr h
    have h1 := ih _ _ _ (hstep pre d tr s h)
    simpa [run, List.append_assoc] using h1

end SPItdkSS

/-! ## A flat case analysis of `handleState` of `SPI-tdk.c` -/

namespace SPItdk
open SPI

theorem not_stop_and_start (d : decoder) (s : Sample) (useSS : Int) :
    ¬ (isStop d s useSS ∧ isStart d s useSS) := by
  unfold isStop isStart
  omega

theorem framing_eq (d : decoder) (s : Sample) (useSS : Int) :
    framing d s useSS =
      if isStop d s useSS then ({ d with state := .IDLE }, stopRows s.time)
      else if isStart d s useSS then
        ({ d with state := .READ_DATA, pos := 0, byte_mosi := 0, byte_miso := 0 },
          if d.state = .IDLE then [startRow s.time] else [])
      else (d, []) := by
  unfold framing
  by_cases h1 : d.sckPrev = 1 ∧ d.sck = 0 ∧ s.sck = 0 ∧ useSS = 0
  · have h2 : ¬ (d.ss = 0 ∧ s.ss = 1 ∧ useSS = 1) := by omega
    have h3 : ¬ (d.sckPrev = 0 ∧ d.sck = 0 ∧ s.sck = 1 ∧ useSS = 0) := by omega
    have h4 : ¬ (d.ss = 1 ∧ s.ss = 0 ∧ useSS = 1) := by omega
    simp [stopClock, stopSelect, startClock, startSelect, isStop, h1, h2, h3, h4]
  · by_cases h2 : d.ss = 0 ∧ s.ss = 1 ∧ useSS = 1
    · have h3 : ¬ (d.sckPrev = 0 ∧ d.sck = 0 ∧ s.sck = 1 ∧ useSS = 0) := by omega
      have h4 : ¬ (d.ss = 1 ∧ s.ss = 0 ∧ useSS = 1) := by omega
      simp [stopClock, stopSelect, startClock, startSelect, isStop, h1, h2, h3, h4]
    · by_cases h3 : d.sckPrev = 0 ∧ d.sck = 0 ∧ s.sck = 1 ∧ useSS = 0
      · have h4 : ¬ (d.ss = 1 ∧ s.ss = 0 ∧ useSS = 1) := by omega
        simp [stopClock, stopSelect, startClock, startSelect, isStop, isStart, h1, h2, h3, h4]
      · by_cases h4 : d.ss = 1 ∧ s.ss = 0 ∧ useSS = 1
        · simp [stopClock, stopSelect, startClock, startSelect, isStop, isStart, h1, h2, h3, h4]
        · simp [stopClock, stopSelect, startClock, startSelect, isStop, isStart, h1, h2, h3, h4]

theorem framing_levels (d : decoder) (s : Sample) (useSS : Int) :
    (framing d s useSS).1.sck = d.sck ∧ (framing d s useSS).1.sckPrev = d.sckPrev ∧
    (framing d s useSS).1.ss = d.ss ∧ (framing d s useSS).1.time = d.time := by
  rw [framing_eq]
  split_ifs <;> simp

/-- The outcomes of `handleState` of `SPI-tdk.c`, one per path through it. -/
theorem handleState_eq (d : decoder) (s : Sample) (useSS : Int) :
    handleState d s useSS =
      if isFiltered d s then (d, [])
      else if isStop d s useSS then
        ({ d with state := .IDLE, ss := s.ss % 256, sckPrev := d.sck, sck := s.sck % 256 },
          stopRows s.time)
      else if isStart d s useSS then
        if s.sck = 1 ∧ d.sck ≠ 1 then
          ({ d with state := .READ_DATA, pos := 1, byte_mosi := orBit 0 s.mosi 0,
                    byte_miso := orBit 0 s.miso 0, time := s.time,
                    ss := s.ss % 256, sckPrev := d.sck, sck := s.sck % 256 },
            if d.state = .IDLE then [startRow s.time] else [])
        else
          ({ d with state := .READ_DATA, pos := 0, byte_mosi := 0, byte_miso := 0,
                    ss := s.ss % 256, sckPrev := d.sck, sck := s.sck % 256 },
            if d.state = .IDLE then [startRow s.time] else [])
      else if d.state = .READ_DATA ∧ s.sck = 1 ∧ d.sck ≠ 1 then
        if (d.pos + 1) % 256 = 8 then
          ({ d with time := if d.pos = 0 then s.time else d.time, pos := 0, byte_mosi := 0,
                    byte_miso := 0, ss := s.ss % 256, sckPrev := d.sck, sck := s.sck % 256 },
            [.data ⟨if d.pos = 0 then s.time else d.time, orBit d.byte_mosi s.mosi d.pos,
              orBit d.byte_miso s.miso d.pos, some .yellow, some .lavender⟩])
        else
          ({ d with time := if d.pos = 0 then s.time else d.time, pos := (d.pos + 1) % 256,
                    byte_mosi := orBit d.byte_mosi s.mosi d.pos,
                    byte_miso := orBit d.byte_miso s.miso d.pos,
                    ss := s.ss % 256, sckPrev := d.sck, sck := s.sck % 256 }, [])
      else ({ d with ss := s.ss % 256, sckPrev := d.sck, sck := s.sck % 256 }, []) := by
  unfold handleState isFiltered
  rw [framing_eq]
  by_cases hf : d.sckPrev = s.sck ∧ d.sck = s.sck
  · rw [if_pos hf, if_pos hf]
  · rw [if_neg hf, if_neg hf]
    by_cases h1 : isStop d s useSS
    · simp [h1, readBit, update]
    · by_cases h2 : isStart d s useSS
      · by_cases h3 : s.sck = 1 ∧ d.sck ≠ 1
        · simp [h1, h2, h3, readBit, update]
        · simp [h1, h2, h3, readBit, update]
      · by_cases h3 : d.state = .READ_DATA ∧ s.sck = 1 ∧ d.sck ≠ 1
        · by_cases h4 : (d.pos + 1) % 256 = 8
          · simp [h1, h2, h3, h4, readBit, update]
          · simp [h1, h2, h3, h4, readBit, update]
        · simp [h1, h2, h3, readBit, update]

end SPItdk

namespace SPItdkSS
open SPI

/-- The outcomes of `handleState` of `SPI-tdk_SS.c`, one per path through it. -/
theorem handleState_eq_ss (d : decoder) (s : Sample) :
    handleState d s =
      if d.ss = s.ss ∧ s.ss = 1 then (d, [])
      else if d.ss = 1 ∧ s.ss = 0 then
        ({ d with state := .READ_DATA, pos := 0, byte_mosi := 0, byte_miso := 0,
                  ss := s.ss % 256, sck := s.sck % 256, mosi := s.mosi % 256,
                  miso := s.miso % 256 },
          if d.state = .IDLE then [.event ⟨s.time, "START", none⟩] else [])
      else if d.ss = 0 ∧ s.ss = 1 then
        ({ d with state := .IDLE, ss := s.ss % 256, sck := s.sck % 256, mosi := s.mosi % 256,
                  miso := s.miso % 256 }, [.event ⟨s.time, "STOP", none⟩])
      else if d.state = .READ_DATA ∧ s.sck = 1 then
        if (d.pos + 1) % 256 = 8 then
          ({ d with pos := 0, byte_mosi := 0, byte_miso := 0, state := .IDLE,
                    ss := s.ss % 256, sck := s.sck % 256, mosi := s.mosi % 256,
                    miso := s.miso % 256 },
            [.data ⟨s.time, orBit d.byte_mosi s.mosi d.pos, orBit d.byte_miso s.miso d.pos,
              none, none⟩, .event ⟨s.time, "DATA", none⟩])
        else
          ({ d with pos := (d.pos + 1) % 256, byte_mosi := orBit d.byte_mosi s.mosi d.pos,
                    byte_miso := orBit d.byte_miso s.miso d.pos,
                    ss := s.ss % 256, sck := s.sck % 256, mosi := s.mosi % 256,
                    miso := s.miso % 256 }, [])
      else ({ d with ss := s.ss % 256, sck := s.sck % 256, mosi := s.mosi % 256,
                     miso := s.miso % 256 }, []) := by
  unfold handleState
  by_cases h0 : d.ss = s.ss ∧ s.ss = 1
  · rw [if_pos h0, if_pos h0]
  · rw [if_neg h0, if_neg h0]
    by_cases h1 : d.ss = 1 ∧ s.ss = 0
    · rw [if_pos h1, if_pos h1]; rfl
    · rw [if_neg h1, if_neg h1]
      by_cases h2 : d.ss = 0 ∧ s.ss = 1
      · rw [if_pos h2, if_pos h2]; rfl
      · rw [if_neg h2, if_neg h2]
        by_cases h3 : d.state = .READ_DATA ∧ s.sck = 1
        · rw [if_pos h3, if_pos h3]
          by_cases h4 : (d.pos + 1) % 256 = 8
          · simp [h4, update]
          · simp [h4, update]
        · rw [if_neg h3, if_neg h3]; rfl

end SPItdkSS

/-! ## Bit index range and the START before READING invariant -/

namespace SPItdk
open SPI

theorem handleState_pos_lt (d : decoder) (s : Sample) (useSS : Int)
    (h : d.state = .READ_DATA → d.pos < 8) :
    (handleState d s useSS).1.state = .READ_DATA → (handleState d s useSS).1.pos < 8 := by
  rw [handleState_eq]
  intro h1
  split_ifs at h1 ⊢ <;> simp_all <;> omega

theorem framing_pos_lt (d : decoder) (s : Sample) (useSS : Int)
    (h : d.state = .READ_DATA → d.pos < 8) :
    (framing d s useSS).1.state = .READ_DATA → (framing d s useSS).1.pos < 8 := by
  rw [framing_eq]
  intro h1
  split_ifs at h1 ⊢ <;> simp_all

theorem decode_pos_lt (useSS : Int) (junk : decoder) (samples : List Sample) :
    (decode useSS junk samples).1.state = .READ_DATA → (decode useSS junk samples).1.pos < 8 := by
  have h := run_inv useSS (fun _ d _ => d.state = .READ_DATA → d.pos < 8)
    (fun _ d _ s hd => handleState_pos_lt d s useSS hd) samples [] (newDecoder junk) []
    (by simp [newDecoder])
  exact h

end SPItdk

namespace SPItdkSS
open SPI

theorem handleState_pos_lt_ss (d : decoder) (s : Sample)
    (h : d.state = .READ_DATA → d.pos < 8) :
    (handleState d s).1.state = .READ_DATA → (handleState d s).1.pos < 8 := by
  rw [handleState_eq_ss]
  intro h1
  split_ifs at h1 ⊢ <;> simp_all <;> omega

theorem decode_pos_lt_ss (junk : decoder) (samples : List Sample) :
    (decode junk samples).1.state = .READ_DATA → (decode junk samples).1.pos < 8 := by
  have h := run_inv_ss (fun _ d _ => d.state = .READ_DATA → d.pos < 8)
    (fun _ d _ s hd => handleState_pos_lt_ss d s hd) samples [] (newDecoder junk) []
    (by simp [newDecoder])
  exact h

end SPItdkSS

namespace SPItdk
open SPI

theorem handleState_startInv (d : decoder) (tr : List Emit) (s : Sample) (useSS : Int)
    (h : StartInv d tr) :
    StartInv (handleState d s useSS).1 (tr ++ (handleState d s useSS).2) := by
  obtain ⟨h1, h2⟩ := h
  unfold StartInv
  rw [handleState_eq]
  split_ifs <;>
    simp_all [lastFrame_append, lastFrame, stopRows, startRow]
  all_goals
    apply h2
    cases hs : d.state <;> simp_all

theorem decode_startInv (useSS : Int) (junk : decoder) (samples : List Sample) :
    StartInv (decode useSS junk samples).1 (decode useSS junk samples).2 := by
  have h := run_inv useSS (fun _ d tr => StartInv d tr)
    (fun _ d tr s hd => handleState_startInv d tr s useSS hd) samples [] (newDecoder junk) []
    (by simp [newDecoder, StartInv])
  simpa [decode] using h

end SPItdk

namespace SPItdkSS
open SPI

theorem handleState_startInv_ss (d : decoder) (tr : List Emit) (s : Sample)
    (h : StartInv d tr) :
    StartInv (handleState d s).1 (tr ++ (handleState d s).2) := by
  obtain ⟨h1, h2⟩ := h
  unfold StartInv
  rw [handleState_eq_ss]
  rcases h1 with h1 | h1 <;> split_ifs <;>
    simp_all [lastFrame_append, lastFrame]

theorem decode_startInv_ss (junk : decoder) (samples : List Sample) :
    StartInv (decode junk samples).1 (decode junk samples).2 := by
  have h := run_inv_ss (fun _ d tr => StartInv d tr)
    (fun _ d tr s hd => handleState_startInv_ss d tr s hd) samples [] (newDecoder junk) []
    (by simp [newDecoder, StartInv])
  simpa [decode] using h

end SPItdkSS

/-! ## Time tags of the two streams -/

namespace SPI

@[simp] theorem dataStream_nil : dataStream [] = [] := rfl

@[simp] theorem eventStream_nil : eventStream [] = [] := rfl

@[simp] theorem dataStream_cons_data (r : DataRow) (tr : List Emit) :
    dataStream (.data r :: tr) = r :: dataStream tr := rfl

@[simp] theorem dataStream_cons_event (e : EventRow) (tr : List Emit) :
    dataStream (.event e :: tr) = dataStream tr := rfl

@[simp] theorem eventStream_cons_data (r : DataRow) (tr : List Emit) :
    eventStream (.data r :: tr) = eventStream tr := rfl

@[simp] theorem eventStream_cons_event (e : EventRow) (tr : List Emit) :
    eventStream (.event e :: tr) = e :: eventStream tr := rfl

@[simp] theorem dataStream_append (a b : List Emit) :
    dataStream (a ++ b) = dataStream a ++ dataStream b := by
  simp [dataStream, List.filterMap_append]

@[simp] theorem eventStream_append (a b : List Emit) :
    eventStream (a ++ b) = eventStream a ++ eventStream b := by
  simp [eventStream, List.filterMap_append]

theorem mem_dataStream {r : DataRow} {tr : List Emit} :
    r ∈ dataStream tr ↔ Emit.data r ∈ tr := by
  induction tr with
  | nil => simp
  | cons x tr ih => cases x <;> simp [ih]

theorem mem_eventStream {e : EventRow} {tr : List Emit} :
    e ∈ eventStream tr ↔ Emit.event e ∈ tr := by
  induction tr with
  | nil => simp
  | cons x tr ih => cases x <;> simp [ih]

@[simp] theorem Emit.time_data (r : DataRow) : (Emit.data r).time = r.time := rfl

@[simp] theorem Emit.time_event (e : EventRow) : (Emit.event e).time = e.time := rfl

end SPI

namespace SPItdk
open SPI

theorem handleState_timeInv (T : Int) (d : decoder) (tr : List Emit) (s : Sample) (useSS : Int)
    (h : TimeInv T d tr) (hT : T ≤ s.time) :
    TimeInv s.time (handleState d s useSS).1 (tr ++ (handleState d s useSS).2) := by
  obtain ⟨⟨h1, h2, h3⟩, h4⟩ := h
  have hd : ∀ r ∈ dataStream tr, r.time ≤ T := fun r hr => h1 _ (mem_dataStream.1 hr)
  have he : ∀ r ∈ eventStream tr, r.time ≤ T := fun r hr => h1 _ (mem_eventStream.1 hr)
  have h1' : ∀ e ∈ tr, e.time ≤ s.time := fun e he => le_trans (h1 e he) hT
  have hd' : ∀ r ∈ dataStream tr, r.time ≤ s.time := fun r hr => le_trans (hd r hr) hT
  have he' : ∀ r ∈ eventStream tr, r.time ≤ s.time := fun r hr => le_trans (he r hr) hT
  unfold TimeInv StreamsOrdered
  rw [handleState_eq]
  split_ifs
  all_goals simp_all [List.pairwise_append, stopRows, startRow]
  all_goals
    first
    | (intro a b; exact le_trans (h4 a b).1 hT)
    | (intro _; exact le_trans h4.1 hT)
    | (intro e he
       rcases he with he | he | he
       · exact h1' e he
       · subst he; simp
       · subst he; simp)
    | (intro e he
       rcases he with he | he
       · exact h1' e he
       · subst he; simp; first | exact le_trans h4.1 hT | done)

end SPItdk

namespace SPItdk
open SPI

theorem run_timeInv (useSS : Int) : ∀ (samples : List Sample) (T : Int) (d : decoder)
    (tr : List Emit), TimeInv T d tr → List.Chain (· ≤ ·) T (samples.map Sample.time) →
      ∃ T2, TimeInv T2 (run useSS d samples).1 (tr ++ (run useSS d samples).2) := by
  intro samples
  induction samples with
  | nil => intro T d tr h _; exact ⟨T, by simpa [run] using h⟩
  | cons s rest ih =>
    intro T d tr h hc
    simp only [List.map_cons, List.chain_cons] at hc
    obtain ⟨T2, h2⟩ := ih s.time _ _ (handleState_timeInv T d tr s useSS h hc.1) hc.2
    exact ⟨T2, by simpa [run, List.append_assoc] using h2⟩

end SPItdk

namespace SPItdkSS
open SPI

theorem handleState_ordered (T : Int) (d : decoder) (tr : List Emit) (s : Sample)
    (h : StreamsOrdered T tr) (hT : T ≤ s.time) :
    StreamsOrdered s.time (tr ++ (handleState d s).2) := by
  obtain ⟨h1, h2, h3⟩ := h
  have hd : ∀ r ∈ dataStream tr, r.time ≤ s.time :=
    fun r hr => le_trans (h1 _ (mem_dataStream.1 hr)) hT
  have he : ∀ r ∈ eventStream tr, r.time ≤ s.time :=
    fun r hr => le_trans (h1 _ (mem_eventStream.1 hr)) hT
  have h1' : ∀ e ∈ tr, e.time ≤ s.time := fun e he => le_trans (h1 e he) hT
  unfold StreamsOrdered
  rw [handleState_eq_ss]
  split_ifs
  all_goals simp_all [List.pairwise_append]
  all_goals
    first
    | (intro e he
       rcases he with he | he | he
       · exact h1' e he
       · subst he; simp
       · subst he; simp)
    | (intro e he
       rcases he with he | he
       · exact h1' e he
       · subst he; simp)

theorem run_ordered : ∀ (samples : List Sample) (T : Int) (d : decoder)
    (tr : List Emit), StreamsOrdered T tr → List.Chain (· ≤ ·) T (samples.map Sample.time) →
      ∃ T2, StreamsOrdered T2 (tr ++ (run d samples).2) := by
  intro samples
  induction samples with
  | nil => intro T d tr h _; exact ⟨T, by simpa [run] using h⟩
  | cons s rest ih =>
    intro T d tr h hc
    simp only [List.map_cons, List.chain_cons] at hc
    obtain ⟨T2, h2⟩ := ih s.time (handleState d s).1 _ (handleState_ordered T d tr s h hc.1) hc.2
    exact ⟨T2, by simpa [run, List.append_assoc] using h2⟩

end SPItdkSS

/-! ## The select-framed decoder: one byte per assertion -/

namespace SPI

theorem assemble_eight (b7 b6 b5 b4 b3 b2 b1 b0 : Nat)
    (h7 : b7 ≤ 1) (h6 : b6 ≤ 1) (h5 : b5 ≤ 1) (h4 : b4 ≤ 1)
    (h3 : b3 ≤ 1) (h2 : b2 ≤ 1) (h1 : b1 ≤ 1) (h0 : b0 ≤ 1) :
    assemble [b7, b6, b5, b4, b3, b2, b1, b0] =
      b7 * 128 + b6 * 64 + b5 * 32 + b4 * 16 + b3 * 8 + b2 * 4 + b1 * 2 + b0 * 1 := by
  interval_cases b7 <;> interval_cases b6 <;> interval_cases b5 <;> interval_cases b4 <;>
    interval_cases b3 <;> interval_cases b2 <;> interval_cases b1 <;> interval_cases b0 <;> rfl

theorem assemble_eight_unfold (b7 b6 b5 b4 b3 b2 b1 b0 : Nat) :
    orBit (orBit (orBit (orBit (orBit (orBit (orBit (orBit 0 b7 0) b6 1) b5 2) b4 3) b3 4) b2 5)
      b1 6) b0 7 = assemble [b7, b6, b5, b4, b3, b2, b1, b0] := rfl

end SPI

namespace SPItdkSS
open SPI

/-- One call of `handleState` of `SPI-tdk_SS.c` while select stays asserted and
the clock reads 1, before the eighth bit. -/
theorem handleState_capture (d : decoder) (s : Sample) (hd : d.ss = 0) (hst : d.state = .READ_DATA)
    (hs : s.ss = 0) (hk : s.sck = 1) (hp : d.pos < 7) :
    handleState d s =
      ({ d with pos := d.pos + 1, byte_mosi := orBit d.byte_mosi s.mosi d.pos,
                byte_miso := orBit d.byte_miso s.miso d.pos,
                ss := 0, sck := 1, mosi := s.mosi % 256, miso := s.miso % 256 }, []) := by
  rw [handleState_eq_ss]
  have h8 : ¬ (d.pos + 1) % 256 = 8 := by omega
  have h9 : (d.pos + 1) % 256 = d.pos + 1 := by omega
  have h7 : d.pos ≠ 7 := by omega
  simp [hd, hst, hs, hk, h8, h9, h7]

/-- The call of `handleState` of `SPI-tdk_SS.c` that captures the eighth bit. -/
theorem handleState_complete (d : decoder) (s : Sample) (hd : d.ss = 0)
    (hst : d.state = .READ_DATA) (hs : s.ss = 0) (hk : s.sck = 1) (hp : d.pos = 7) :
    handleState d s =
      ({ d with pos := 0, byte_mosi := 0, byte_miso := 0, state := .IDLE,
                ss := 0, sck := 1, mosi := s.mosi % 256, miso := s.miso % 256 },
        [.data ⟨s.time, orBit d.byte_mosi s.mosi 7, orBit d.byte_miso s.miso 7, none, none⟩,
         .event ⟨s.time, "DATA", none⟩]) := by
  rw [handleState_eq_ss]
  simp [hd, hst, hs, hk, hp]

/-- The call of `handleState` of `SPI-tdk_SS.c` on the first sample with select
asserted, from the initial state. -/
theorem handleState_first (junk : decoder) (s : Sample) (hs : s.ss = 0) :
    handleState (newDecoder junk) s =
      ({ junk with state := .READ_DATA, ss := 0, sck := s.sck % 256, mosi := s.mosi % 256,
                   miso := s.miso % 256, pos := 0, byte_mosi := 0, byte_miso := 0 },
        [.event ⟨s.time, "START", none⟩]) := by
  rw [handleState_eq_ss]
  simp [newDecoder, hs]

end SPItdkSS

namespace SPI

theorem frameFlag_append (seen : Bool) (a b : List Emit) :
    frameFlag seen (a ++ b) = frameFlag (frameFlag seen a) b := by
  induction a generalizing seen with
  | nil => rfl
  | cons x a ih =>
    cases x with
    | data r => simp [frameFlag, ih]
    | event e =>
      by_cases he : e.text = "START" <;> simp [frameFlag, ih, he]

theorem frameCheck_append (seen : Bool) (a b : List Emit) :
    frameCheck seen (a ++ b) = (frameCheck seen a && frameCheck (frameFlag seen a) b) := by
  induction a generalizing seen with
  | nil => simp [frameCheck, frameFlag]
  | cons x a ih =>
    cases x with
    | data r => simp [frameCheck, frameFlag, ih, Bool.and_assoc]
    | event e =>
      by_cases he : e.text = "START" <;> simp [frameCheck, frameFlag, ih, he]

theorem frameCheck_prefix (tr : List Emit) : ∀ (seen : Bool), frameCheck seen tr = true →
    ∀ b, b <+: tr → startFree b → (dataStream b).length ≤ (if seen then 0 else 1) := by
  induction tr with
  | nil =>
    intro seen _ b hb _
    have : b = [] := List.prefix_nil.1 hb
    subst this
    simp
  | cons x tr ih =>
    intro seen hc b hb hf
    cases b with
    | nil => simp
    | cons y b =>
      obtain ⟨hxy, hb2⟩ := List.cons_prefix_cons.1 hb
      subst hxy
      cases y with
      | data r =>
        simp only [frameCheck, Bool.and_eq_true, Bool.not_eq_true'] at hc
        have hf2 : startFree b := by
          intro e he; exact hf e (by simpa using he)
        have := ih true hc.2 b hb2 hf2
        simp only [if_true, Nat.le_zero] at this
        simp [hc.1, this]
      | event e =>
        have hne : e.text ≠ "START" := hf e (by simp)
        have hf2 : startFree b := by
          intro e2 he; exact hf e2 (by simp [he])
        simp only [frameCheck, hne, if_false] at hc
        simpa using ih seen hc b hb2 hf2

theorem frameCheck_infix (tr : List Emit) : ∀ (seen : Bool), frameCheck seen tr = true →
    ∀ b, b <:+: tr → startFree b → (dataStream b).length ≤ 1 := by
  induction tr with
  | nil =>
    intro seen _ b hb _
    have : b = [] := List.infix_nil.1 hb
    subst this
    simp
  | cons x tr ih =>
    intro seen hc b hb hf
    rcases List.infix_cons_iff.1 hb with hp | hi
    · have := frameCheck_prefix (x :: tr) seen hc b hp hf
      split_ifs at this <;> omega
    · cases x with
      | data r =>
        simp only [frameCheck, Bool.and_eq_true] at hc
        exact ih true hc.2 b hi hf
      | event e =>
        by_cases he : e.text = "START"
        · simp only [frameCheck, he, if_true] at hc
          exact ih false hc b hi hf
        · simp only [frameCheck, he, if_false] at hc
          exact ih seen hc b hi hf

end SPI

namespace SPItdkSS
open SPI

theorem handleState_frameInv (d : decoder) (tr : List Emit) (s : Sample)
    (h : FrameInv d tr) :
    FrameInv (handleState d s).1 (tr ++ (handleState d s).2) := by
  obtain ⟨h1, h2, h3⟩ := h
  unfold FrameInv
  rw [handleState_eq_ss]
  rcases h1 with h1 | h1 <;> split_ifs <;>
    simp_all [frameCheck_append, frameFlag_append, frameCheck, frameFlag]

theorem decode_frameInv (junk : decoder) (samples : List Sample) :
    FrameInv (decode junk samples).1 (decode junk samples).2 := by
  have h := run_inv_ss (fun _ d tr => FrameInv d tr)
    (fun _ d tr s hd => handleState_frameInv d tr s hd) samples [] (newDecoder junk) []
    (by simp [newDecoder, FrameInv, frameCheck, frameFlag])
  simpa [decode] using h

/-- While the state is `IDLE` and select stays asserted nothing is appended. -/
theorem run_idle_asserted : ∀ (samples : List Sample) (d : decoder), d.state = .IDLE →
    d.ss = 0 → (∀ x ∈ samples, x.ss = 0) → (run d samples).2 = [] := by
  intro samples
  induction samples with
  | nil => intro d _ _ _; rfl
  | cons s rest ih =>
    intro d hst hss hall
    have hs : s.ss = 0 := hall s (by simp)
    have hstep : handleState d s =
        ({ d with ss := 0, sck := s.sck % 256, mosi := s.mosi % 256,
                  miso := s.miso % 256 }, []) := by
      rw [handleState_eq_ss]
      simp [hst, hss, hs]
    have h2 := ih (handleState d s).1 (by rw [hstep]; exact hst) (by rw [hstep])
      (fun x hx => hall x (by simp [hx]))
    rw [run, h2, hstep]
    rfl

end SPItdkSS

/-! ## The clock-framed decoder on an alternating clock -/

namespace SPItdk
open SPI

/-- A call on a clock-low sample when the stored clock level is high. -/
theorem handleState_low (d : decoder) (s : Sample) (hd : d.sck = 1) (hs : s.sck = 0) :
    handleState d s 0 = ({ d with ss := s.ss % 256, sckPrev := 1, sck := 0 }, []) := by
  rw [handleState_eq]
  simp [isFiltered, isStop, isStart, hd, hs]

/-- A call on a clock-high sample after high, low, while reading, before the
eighth bit. -/
theorem handleState_high (d : decoder) (s : Sample) (hst : d.state = .READ_DATA)
    (hp : d.sckPrev = 1) (hd : d.sck = 0) (hs : s.sck = 1) (hpos : d.pos < 7) :
    handleState d s 0 =
      ({ d with time := if d.pos = 0 then s.time else d.time, pos := d.pos + 1,
                byte_mosi := orBit d.byte_mosi s.mosi d.pos,
                byte_miso := orBit d.byte_miso s.miso d.pos,
                ss := s.ss % 256, sckPrev := 0, sck := 1 }, []) := by
  rw [handleState_eq]
  have h8 : ¬ (d.pos + 1) % 256 = 8 := by omega
  have h9 : (d.pos + 1) % 256 = d.pos + 1 := by omega
  have h7 : d.pos ≠ 7 := by omega
  simp [isFiltered, isStop, isStart, hst, hp, hd, hs, h8, h9, h7]

/-- The call on the clock-high sample that captures the eighth bit. -/
theorem handleState_high_complete (d : decoder) (s : Sample) (hst : d.state = .READ_DATA)
    (hp : d.sckPrev = 1) (hd : d.sck = 0) (hs : s.sck = 1) (hpos : d.pos = 7) :
    handleState d s 0 =
      ({ d with pos := 0, byte_mosi := 0, byte_miso := 0,
                ss := s.ss % 256, sckPrev := 0, sck := 1 },
        [.data ⟨d.time, orBit d.byte_mosi s.mosi 7, orBit d.byte_miso s.miso 7,
          some .yellow, some .lavender⟩]) := by
  rw [handleState_eq]
  simp [isFiltered, isStop, isStart, hst, hp, hd, hs, hpos]

/-- The call on the first clock-high sample, from the initial state. -/
theorem handleState_first_high (junk : decoder) (s : Sample) (hs : s.sck = 1) :
    handleState (newDecoder junk) s 0 =
      ({ junk with state := .READ_DATA, time := s.time, pos := 1,
                   byte_mosi := orBit 0 s.mosi 0, byte_miso := orBit 0 s.miso 0,
                   ss := s.ss % 256, sckPrev := 0, sck := 1 }, [startRow s.time]) := by
  rw [handleState_eq]
  simp [isFiltered, isStop, isStart, newDecoder, hs]

theorem run_cons (useSS : Int) (d : decoder) (s : Sample) (rest : List Sample) :
    run useSS d (s :: rest) =
      ((run useSS (handleState d s useSS).1 rest).1,
        (handleState d s useSS).2 ++ (run useSS (handleState d s useSS).1 rest).2) := rfl

/-- Seven further pulses after the first clock-high sample of a byte: the low
of the first pulse, then high and low of seven more. -/
theorem run_group_tail (d : decoder) (l7 : Sample) (p6 p5 p4 p3 p2 p1 p0 : Sample × Sample)
    (rest : List Sample) (hst : d.state = .READ_DATA) (hd : d.sck = 1) (hpos : d.pos = 1)
    (hl7 : l7.sck = 0)
    (h6 : PulseOK p6) (h5 : PulseOK p5) (h4 : PulseOK p4) (h3 : PulseOK p3)
    (h2 : PulseOK p2) (h1 : PulseOK p1) (h0 : PulseOK p0) :
    run 0 d (l7 :: p6.1 :: p6.2 :: p5.1 :: p5.2 :: p4.1 :: p4.2 :: p3.1 :: p3.2 ::
        p2.1 :: p2.2 :: p1.1 :: p1.2 :: p0.1 :: p0.2 :: rest) =
      ((run 0 { d with pos := 0, byte_mosi := 0, byte_miso := 0, ss := p0.2.ss % 256,
                       sckPrev := 1, sck := 0 } rest).1,
       .data ⟨d.time,
          orBit (orBit (orBit (orBit (orBit (orBit (orBit d.byte_mosi p6.1.mosi 1) p5.1.mosi 2)
            p4.1.mosi 3) p3.1.mosi 4) p2.1.mosi 5) p1.1.mosi 6) p0.1.mosi 7,
          orBit (orBit (orBit (orBit (orBit (orBit (orBit d.byte_miso p6.1.miso 1) p5.1.miso 2)
            p4.1.miso 3) p3.1.miso 4) p2.1.miso 5) p1.1.miso 6) p0.1.miso 7,
          some .yellow, some .lavender⟩ ::
        (run 0 { d with pos := 0, byte_mosi := 0, byte_miso := 0, ss := p0.2.ss % 256,
                        sckPrev := 1, sck := 0 } rest).2) := by
  obtain ⟨a6, b6, -, -⟩ := h6
  obtain ⟨a5, b5, -, -⟩ := h5
  obtain ⟨a4, b4, -, -⟩ := h4
  obtain ⟨a3, b3, -, -⟩ := h3
  obtain ⟨a2, b2, -, -⟩ := h2
  obtain ⟨a1, b1, -, -⟩ := h1
  obtain ⟨a0, b0, -, -⟩ := h0
  simp [run_cons, handleState_low, handleState_high, handleState_high_complete,
    hst, hd, hpos, hl7, a6, b6, a5, b5, a4, b4, a3, b3, a2, b2, a1, b1, a0, b0]

end SPItdk

namespace SPItdk
open SPI

theorem orBit_chain_eq (b7 b6 b5 b4 b3 b2 b1 b0 : Nat)
    (h7 : b7 ≤ 1) (h6 : b6 ≤ 1) (h5 : b5 ≤ 1) (h4 : b4 ≤ 1)
    (h3 : b3 ≤ 1) (h2 : b2 ≤ 1) (h1 : b1 ≤ 1) (h0 : b0 ≤ 1) :
    orBit (orBit (orBit (orBit (orBit (orBit (orBit (orBit 0 b7 0) b6 1) b5 2) b4 3) b3 4) b2 5)
      b1 6) b0 7 =
      b7 * 128 + b6 * 64 + b5 * 32 + b4 * 16 + b3 * 8 + b2 * 4 + b1 * 2 + b0 * 1 := by
  rw [assemble_eight_unfold, assemble_eight _ _ _ _ _ _ _ _ h7 h6 h5 h4 h3 h2 h1 h0]

/-- From a reading state at bit index 0 with cleared accumulators, stored
clock levels high then low: `n` groups of eight pulses append the `n` rows of
`expectedBytes`, and nothing else. -/
theorem run_groups : ∀ (n : Nat) (pulses : List (Sample × Sample)),
    pulses.length = 8 * n → (∀ p ∈ pulses, PulseOK p) →
    ∀ d : decoder, d.state = .READ_DATA → d.sckPrev = 1 → d.sck = 0 → d.pos = 0 →
      d.byte_mosi = 0 → d.byte_miso = 0 →
      (run 0 d (samplesOf pulses)).2 = (expectedBytes (pulses.map Prod.fst)).map Emit.data ∧
      (expectedBytes (pulses.map Prod.fst)).length = n := by
  intro n
  induction n with
  | zero =>
    intro pulses hlen _ d _ _ _ _ _ _
    have : pulses = [] := List.length_eq_zero.1 (by simpa using hlen)
    subst this
    simp [samplesOf, run, expectedBytes]
  | succ n ih =>
    intro pulses hlen hok d hst hp hd hpos hbm hbi
    rcases pulses with _ | ⟨p7, _ | ⟨p6, _ | ⟨p5, _ | ⟨p4, _ | ⟨p3, _ | ⟨p2, _ | ⟨p1, _ |
      ⟨p0, rest⟩⟩⟩⟩⟩⟩⟩⟩
    all_goals try (simp at hlen <;> omega)
    have hlen2 : rest.length = 8 * n := by simp at hlen; omega
    simp only [List.mem_cons, forall_eq_or_imp] at hok
    obtain ⟨k7, k6, k5, k4, k3, k2, k1, k0, hrest⟩ := hok
    have hfirst := handleState_high d p7.1 hst hp hd k7.1 (by omega)
    have htail := run_group_tail (handleState d p7.1 0).1 p7.2 p6 p5 p4 p3 p2 p1 p0
      (samplesOf rest) (by rw [hfirst]; exact hst) (by rw [hfirst]) (by rw [hfirst]; simp [hpos])
      k7.2.1 k6 k5 k4 k3 k2 k1 k0
    obtain ⟨ih1, ih2⟩ := ih rest hlen2 hrest
      { (handleState d p7.1 0).1 with pos := 0, byte_mosi := 0, byte_miso := 0,
                                      ss := p0.2.ss % 256, sckPrev := 1, sck := 0 }
      (by rw [hfirst]; exact hst) rfl rfl rfl rfl rfl
    have hm := orBit_chain_eq _ _ _ _ _ _ _ _ k7.2.2.1 k6.2.2.1 k5.2.2.1 k4.2.2.1 k3.2.2.1
      k2.2.2.1 k1.2.2.1 k0.2.2.1
    have hi := orBit_chain_eq _ _ _ _ _ _ _ _ k7.2.2.2 k6.2.2.2 k5.2.2.2 k4.2.2.2 k3.2.2.2
      k2.2.2.2 k1.2.2.2 k0.2.2.2
    constructor
    · simp only [samplesOf, List.map_cons, expectedBytes]
      rw [run_cons, htail, ih1]
      rw [hfirst]
      simp [hpos, hbm, hbi, hm, hi]
    · simp only [List.map_cons, expectedBytes, List.length_cons, ih2]

end SPItdk

namespace SPItdk
open SPI

theorem handleState_sck_high (d : decoder) (s : Sample) (useSS : Int) (hs : s.sck = 1) :
    (handleState d s useSS).1.sck = 1 := by
  rw [handleState_eq]
  split_ifs <;> simp_all [isFiltered]

theorem samplesOf_concat (ps : List (Sample × Sample)) (p : Sample × Sample) :
    samplesOf (ps ++ [p]) = samplesOf ps ++ [p.1, p.2] := by
  induction ps with
  | nil => rfl
  | cons q ps ih => simp [samplesOf, ih]

/-- Leaving out the final clock-low sample does not change what is appended. -/
theorem run_dropLast (d : decoder) (pulses : List (Sample × Sample)) (hne : pulses ≠ [])
    (hok : ∀ p ∈ pulses, PulseOK p) :
    (run 0 d (samplesOf pulses).dropLast).2 = (run 0 d (samplesOf pulses)).2 := by
  rcases List.eq_nil_or_concat pulses with h | ⟨ps, p, h⟩
  · exact absurd h hne
  · rw [List.concat_eq_append] at h
    subst h
    have hp : PulseOK p := hok p (by simp)
    have e1 : samplesOf (ps ++ [p]) = (samplesOf ps ++ [p.1]) ++ [p.2] := by
      rw [samplesOf_concat]; simp
    rw [e1, List.dropLast_concat, run_append 0 d (samplesOf ps ++ [p.1]) [p.2]]
    have e2 : (run 0 d (samplesOf ps ++ [p.1])).1.sck = 1 := by
      rw [run_append]
      simp only [run]
      exact handleState_sck_high _ _ _ hp.1
    simp [run, handleState_low _ _ e2 hp.2.1]

end SPItdk

/-! ## Byte time tags and frame bracketing in `SPI-tdk.c` -/

namespace SPItdk
open SPI

theorem latches_iff (useSS : Int) (d : decoder) (s : Sample) :
    latches useSS d s ↔ ¬ isFiltered d s ∧ s.sck = 1 ∧ d.sck ≠ 1 ∧ ¬ isStop d s useSS ∧
      (isStart d s useSS ∨ (d.state = .READ_DATA ∧ d.pos = 0)) := by
  unfold latches
  rw [framing_eq]
  by_cases h1 : isStop d s useSS
  · simp [h1]
  · by_cases h2 : isStart d s useSS
    · simp [h1, h2]
    · simp [h1, h2]
      tauto

theorem run_concat_fst (useSS : Int) (d0 : decoder) (pre : List Sample) (s : Sample) :
    (run useSS d0 (pre ++ [s])).1 = (handleState (run useSS d0 pre).1 s useSS).1 := by
  rw [run_append]
  rfl

/-- A sample that does not latch keeps the most recent latching sample. -/
theorem latch_extend (useSS : Int) (d0 : decoder) (pre : List Sample) (s : Sample) (t : Int)
    (hs : ¬ latches useSS (run useSS d0 pre).1 s)
    (h : ∃ a y b, pre = a ++ y :: b ∧ latches useSS (run useSS d0 a).1 y ∧
      (∀ b1 z b2, b = b1 ++ z :: b2 → ¬ latches useSS (run useSS d0 (a ++ y :: b1)).1 z) ∧
      t = y.time) :
    ∃ a y b, pre ++ [s] = a ++ y :: b ∧ latches useSS (run useSS d0 a).1 y ∧
      (∀ b1 z b2, b = b1 ++ z :: b2 → ¬ latches useSS (run useSS d0 (a ++ y :: b1)).1 z) ∧
      t = y.time := by
  obtain ⟨a, y, b, hpre, hl, hno, ht⟩ := h
  refine ⟨a, y, b ++ [s], by simp [hpre], hl, ?_, ht⟩
  intro b1 z b2 hb
  rcases List.eq_nil_or_concat b2 with h2 | ⟨b3, s2, h2⟩
  · subst h2
    have hb' : b ++ [s] = b1 ++ [z] := hb
    obtain ⟨e1, e2⟩ := List.append_inj' hb' rfl
    simp only [List.cons.injEq, and_true] at e2
    subst e1 e2
    rw [← hpre]
    exact hs
  · rw [List.concat_eq_append] at h2
    subst h2
    have hb' : b ++ [s] = (b1 ++ z :: b3) ++ [s2] := by simpa using hb
    obtain ⟨e1, _⟩ := List.append_inj' hb' rfl
    exact hno b1 z b3 e1

theorem handleState_latchInv (useSS : Int) (d0 : decoder) (pre : List Sample) (d : decoder)
    (s : Sample) (h : LatchInv useSS d0 pre d) :
    LatchInv useSS d0 (pre ++ [s]) (handleState d s useSS).1 := by
  obtain ⟨hd, hinv⟩ := h
  refine ⟨by rw [run_concat_fst, ← hd], ?_⟩
  have hlat := latches_iff useSS d s
  rw [hd] at hlat
  intro hst hpos
  by_cases hl : latches useSS d s
  · refine ⟨pre, s, [], by simp, by rw [← hd]; exact hl, ?_, ?_⟩
    · intro b1 z b2 hb
      simp at hb
    · have hl2 := (latches_iff useSS d s).1 hl
      obtain ⟨l1, l2, l3, l4, l5⟩ := hl2
      rw [handleState_eq]
      rcases l5 with l5 | l5
      · simp [l1, l2, l3, l4, l5]
      · have : ¬ (d.pos + 1) % 256 = 8 := by omega
        by_cases hstart : isStart d s useSS
        · simp [l1, l2, l3, l4, hstart]
        · simp [l1, l2, l3, l4, l5, hstart]
  · have hl' : ¬ latches useSS (run useSS d0 pre).1 s := by rw [← hd]; exact hl
    have hl2 := (not_congr (latches_iff useSS d s)).1 hl
    apply latch_extend useSS d0 pre s _ hl'
    have key : d.state = .READ_DATA ∧ d.pos ≠ 0 ∧ (handleState d s useSS).1.time = d.time := by
      rw [handleState_eq] at hst hpos ⊢
      split_ifs at hst hpos ⊢ <;> simp_all
    obtain ⟨k1, k2, k3⟩ := key
    rw [k3]
    exact hinv k1 k2

end SPItdk

namespace SPItdk
open SPI

theorem decode_latchInv (useSS : Int) (junk : decoder) (pre : List Sample) :
    LatchInv useSS (newDecoder junk) pre (decode useSS junk pre).1 := by
  have h := run_inv useSS (fun p d _ => LatchInv useSS (newDecoder junk) p d)
    (fun p d _ s hd => handleState_latchInv useSS (newDecoder junk) p d s hd) pre []
    (newDecoder junk) [] ⟨rfl, by simp [newDecoder]⟩
  simpa [decode] using h

/-- A byte row is only appended by the completing capture, at a bit index other
than 0, and carries the latched time. -/
theorem byte_row_origin (useSS : Int) (d : decoder) (s : Sample) (r : DataRow)
    (hr : Emit.data r ∈ (handleState d s useSS).2) (hy : r.isByte) :
    d.state = .READ_DATA ∧ d.pos ≠ 0 ∧ r.time = d.time ∧ ¬ latches useSS d s := by
  unfold DataRow.isByte at hy
  rw [latches_iff]
  rw [handleState_eq] at hr
  split_ifs at hr <;> simp [stopRows, startRow] at hr <;> subst hr
  · simp at hy
  all_goals
    have hp : d.pos ≠ 0 := by omega
    simp_all

end SPItdk

namespace SPI

theorem bracketed_append_other (tr out : List Emit) (h : Bracketed tr)
    (hno : ∀ r, Emit.data r ∈ out → ¬ r.isByte)
    (hlate : ∀ r, Emit.data r ∈ tr → ∀ e ∈ eventStream out, e.text = "STOP" → r.time < e.time) :
    Bracketed (tr ++ out) := by
  intro pre r post heq hy
  rcases List.append_eq_append_iff.1 heq with ⟨a, _, h2⟩ | ⟨c, h1, h2⟩
  · exact absurd hy (hno r (by rw [h2]; simp))
  · cases c with
    | nil =>
      exact absurd hy (hno r (by rw [List.nil_append] at h2; rw [← h2]; simp))
    | cons x c =>
      simp only [List.cons_append, List.cons.injEq] at h2
      obtain ⟨hx, hpost⟩ := h2
      subst hx
      obtain ⟨hA, hB⟩ := h pre r c h1 hy
      refine ⟨hA, ?_⟩
      intro e he hs
      rw [hpost, eventStream_append, List.mem_append] at he
      rcases he with he | he
      · exact hB e he hs
      · exact hlate r (by rw [h1]; simp) e he hs

theorem bracketed_append_byte (tr : List Emit) (r0 : DataRow) (h : Bracketed tr)
    (hA : ∃ e, lastFrame tr = some e ∧ e.text = "START" ∧ e.time ≤ r0.time) :
    Bracketed (tr ++ [Emit.data r0]) := by
  intro pre r post heq hy
  rcases List.append_eq_append_iff.1 heq with ⟨a, h1, h2⟩ | ⟨c, h1, h2⟩
  · cases a with
    | nil =>
      simp only [List.nil_append, List.cons.injEq, Emit.data.injEq] at h2
      obtain ⟨hr, hpost⟩ := h2
      subst hr
      rw [List.append_nil] at h1
      subst h1
      rw [← hpost]
      exact ⟨hA, by simp⟩
    | cons x a =>
      simp only [List.cons_append, List.cons.injEq] at h2
      have := h2.2
      simp at this
  · cases c with
    | nil =>
      simp only [List.nil_append, List.cons.injEq, Emit.data.injEq] at h2
      obtain ⟨hr, hpost⟩ := h2
      subst hr
      rw [List.append_nil] at h1
      subst h1
      rw [hpost]
      exact ⟨hA, by simp⟩
    | cons x c =>
      simp only [List.cons_append, List.cons.injEq] at h2
      obtain ⟨hx, hpost⟩ := h2
      subst hx
      obtain ⟨hA2, hB⟩ := h pre r c h1 hy
      refine ⟨hA2, ?_⟩
      intro e he hs
      rw [hpost, eventStream_append] at he
      simp only [eventStream_cons_data, eventStream_nil, List.append_nil] at he
      exact hB e he hs

end SPI

namespace SPItdk
open SPI

theorem lastFrame_time_le {T : Int} {tr : List Emit} {e : EventRow}
    (hT : ∀ x ∈ tr, x.time ≤ T) (h : lastFrame tr = some e) : e.time ≤ T :=
  hT _ (mem_eventStream.1 (lastFrame_mem h).1)

theorem handleState_bracketInv (T : Int) (d : decoder) (tr : List Emit) (s : Sample)
    (useSS : Int) (h : BracketInv T d tr) (hT : T < s.time) :
    BracketInv s.time (handleState d s useSS).1 (tr ++ (handleState d s useSS).2) := by
  obtain ⟨hti, hinv, hst, hbr⟩ := h
  have hti' := handleState_timeInv T d tr s useSS hti (le_of_lt hT)
  refine ⟨hti', ?_⟩
  obtain ⟨⟨hle, -, -⟩, hdt⟩ := hti
  have hstate : d.state = .IDLE ∨ d.state = .READ_DATA := by
    cases hs : d.state <;> simp_all
  have hlate : ∀ r, Emit.data r ∈ tr → ∀ e ∈ eventStream (stopRows s.time),
      e.text = "STOP" → r.time < e.time := by
    intro r hr e he _
    simp only [stopRows, eventStream_cons_data, eventStream_cons_event, eventStream_nil,
      List.mem_singleton] at he
    subst he
    exact lt_of_le_of_lt (hle _ hr) hT
  rw [handleState_eq]
  by_cases h1 : isFiltered d s
  · rw [if_pos h1, List.append_nil]
    exact ⟨hinv, hst, hbr⟩
  rw [if_neg h1]
  by_cases h2 : isStop d s useSS
  · rw [if_pos h2]
    refine ⟨by simp, by simp, ?_⟩
    apply bracketed_append_other tr _ hbr _ hlate
    intro r hr
    simp [stopRows] at hr
    subst hr
    simp [DataRow.isByte]
  rw [if_neg h2]
  by_cases h3 : isStart d s useSS
  · rw [if_pos h3]
    have hstart : ∀ (tr2 : List Emit), tr2 = (if d.state = .IDLE then [startRow s.time] else []) →
        (∃ e, lastFrame (tr ++ tr2) = some e ∧ e.text = "START" ∧ e.time ≤ s.time) ∧
        Bracketed (tr ++ tr2) := by
      intro tr2 htr2
      rcases hstate with hs | hs
      · simp only [hs, if_true] at htr2
        subst htr2
        refine ⟨⟨⟨s.time, "START", some .lime⟩,
          by simp [lastFrame_append, lastFrame, startRow], rfl, le_refl _⟩, ?_⟩
        apply bracketed_append_other tr _ hbr
        · intro r hr; simp [startRow] at hr
        · intro r _ e he hs2
          simp [startRow] at he
          subst he
          simp at hs2
      · have hne : d.state ≠ .IDLE := by rw [hs]; simp
        simp only [hne, if_false] at htr2
        subst htr2
        obtain ⟨e, he1, he2, -⟩ := hst hs
        rw [List.append_nil]
        exact ⟨⟨e, he1, he2, le_trans (lastFrame_time_le hle he1) (le_of_lt hT)⟩, hbr⟩
    obtain ⟨⟨e, he1, he2, he3⟩, hb⟩ := hstart _ rfl
    by_cases h4 : s.sck = 1 ∧ d.sck ≠ 1
    · rw [if_pos h4]
      exact ⟨by simp, fun _ => ⟨e, he1, he2, fun _ => he3⟩, hb⟩
    · rw [if_neg h4]
      exact ⟨by simp, fun _ => ⟨e, he1, he2, fun hp => absurd rfl hp⟩, hb⟩
  rw [if_neg h3]
  by_cases h4 : d.state = .READ_DATA ∧ s.sck = 1 ∧ d.sck ≠ 1
  · rw [if_pos h4]
    obtain ⟨e, he1, he2, he3⟩ := hst h4.1
    by_cases h5 : (d.pos + 1) % 256 = 8
    · have hp : d.pos ≠ 0 := by omega
      rw [if_pos h5]
      simp only [hp, if_false]
      refine ⟨hinv, fun _ => ⟨e, by simp [lastFrame_append, lastFrame, he1], he2,
        fun hp2 => absurd rfl hp2⟩, ?_⟩
      exact bracketed_append_byte tr _ hbr ⟨e, he1, he2, he3 hp⟩
    · rw [if_neg h5, List.append_nil]
      refine ⟨hinv, fun _ => ⟨e, he1, he2, fun _ => ?_⟩, hbr⟩
      by_cases hp : d.pos = 0
      · simp only [hp, if_true]
        exact le_trans (lastFrame_time_le hle he1) (le_of_lt hT)
      · simp only [hp, if_false]
        exact he3 hp
  · rw [if_neg h4, List.append_nil]
    exact ⟨hinv, hst, hbr⟩

theorem run_bracketInv (useSS : Int) : ∀ (samples : List Sample) (T : Int) (d : decoder)
    (tr : List Emit), BracketInv T d tr → List.Chain (· < ·) T (samples.map Sample.time) →
      ∃ T2, BracketInv T2 (run useSS d samples).1 (tr ++ (run useSS d samples).2) := by
  intro samples
  induction samples with
  | nil => intro T d tr h _; exact ⟨T, by simpa [run] using h⟩
  | cons s rest ih =>
    intro T d tr h hc
    simp only [List.map_cons, List.chain_cons] at hc
    obtain ⟨T2, h2⟩ := ih s.time _ _ (handleState_bracketInv T d tr s useSS h hc.1) hc.2
    exact ⟨T2, by simpa [run, List.append_assoc] using h2⟩

end SPItdk

/-! ## Duplicated samples -/

namespace SPItdk
open SPI

theorem handleState_filtered (d : decoder) (s : Sample) (useSS : Int)
    (h1 : d.sckPrev = s.sck) (h2 : d.sck = s.sck) : handleState d s useSS = (d, []) := by
  unfold handleState
  rw [if_pos ⟨h1, h2⟩]

theorem handleState_sck (d : decoder) (s : Sample) (useSS : Int) (hs : s.sck ≤ 1) :
    (handleState d s useSS).1.sck = s.sck := by
  have : s.sck % 256 = s.sck := by omega
  rw [handleState_eq]
  split_ifs <;> simp_all [isFiltered]

theorem handleState_sck_both (d : decoder) (s : Sample) (useSS : Int) (hd : d.sck = s.sck)
    (hs : s.sck ≤ 1) :
    (handleState d s useSS).1.sckPrev = s.sck ∧ (handleState d s useSS).1.sck = s.sck := by
  have : s.sck % 256 = s.sck := by omega
  rw [handleState_eq]
  split_ifs <;> simp_all [isFiltered]

/-- After two samples with the same clock level, a duplicate of the second is
ignored. -/
theorem run_dup_repeat (useSS : Int) (d : decoder) (p s : Sample) (t : Int)
    (post : List Sample) (hp : p.sck = s.sck) (hs : s.sck ≤ 1) :
    run useSS d (p :: s :: s.dup t :: post) = run useSS d (p :: s :: post) := by
  have h1 : (handleState d p useSS).1.sck = s.sck := by
    rw [← hp]; exact handleState_sck d p useSS (by omega)
  obtain ⟨h2, h3⟩ := handleState_sck_both (handleState d p useSS).1 s useSS h1 hs
  have h4 := handleState_filtered (handleState (handleState d p useSS).1 s useSS).1 (s.dup t)
    useSS h2 h3
  simp only [run, h4, List.nil_append]

/-- A first sample with the clock low, and its duplicate, are both ignored. -/
theorem run_dup_first (useSS : Int) (junk : decoder) (s : Sample) (t : Int)
    (post : List Sample) (hs : s.sck = 0) :
    run useSS (newDecoder junk) (s :: s.dup t :: post) = run useSS (newDecoder junk) (s :: post) := by
  have h1 := handleState_filtered (newDecoder junk) s useSS (by simp [newDecoder, hs])
    (by simp [newDecoder, hs])
  have h2 := handleState_filtered (newDecoder junk) (s.dup t) useSS
    (by simp [newDecoder, hs, Sample.dup]) (by simp [newDecoder, hs, Sample.dup])
  simp only [run, h1, h2, List.nil_append]

end SPItdk

namespace SPItdkSS
open SPI

/-- A duplicate of a sample with select deasserted, or with the clock not
high, changes nothing. -/
theorem handleState_dup (d : decoder) (s : Sample) (t : Int) (h : s.ss = 1 ∨ s.sck ≠ 1) :
    handleState (handleState d s).1 (s.dup t) = ((handleState d s).1, []) := by
  rw [handleState_eq_ss d s]
  by_cases h1 : s.ss = 1
  · split_ifs <;> simp_all [handleState_eq_ss, Sample.dup]
  · have h2 : s.sck ≠ 1 := by tauto
    split_ifs <;> simp_all [handleState_eq_ss, Sample.dup]
    all_goals (intros; omega)

theorem run_dup (d : decoder) (s : Sample) (t : Int) (post : List Sample)
    (h : s.ss = 1 ∨ s.sck ≠ 1) :
    run d (s :: s.dup t :: post) = run d (s :: post) := by
  simp only [run, handleState_dup d s t h, List.nil_append]

end SPItdkSS

namespace SPItdk
open SPI

/-- The rows appended by `handleState` with `useSS = 0`, and the fields of the
new state other than the stored data and select levels, as a function of the
fields of the old state other than those. -/
theorem handleState_clock_only (d e : decoder) (s : Sample)
    (h1 : d.state = e.state) (h2 : d.sck = e.sck) (h3 : d.sckPrev = e.sckPrev)
    (h4 : d.pos = e.pos) (h5 : d.byte_mosi = e.byte_mosi) (h6 : d.byte_miso = e.byte_miso)
    (h7 : d.time = e.time) :
    (handleState d s 0).2 = (handleState e s 0).2 ∧
      SimClock (handleState d s 0).1 (handleState e s 0).1 := by
  have hf : isFiltered d s ↔ isFiltered e s := by simp [isFiltered, h2, h3]
  have hstop : isStop d s 0 ↔ isStop e s 0 := by simp [isStop, h2, h3]
  have hstart : isStart d s 0 ↔ isStart e s 0 := by simp [isStart, h2, h3]
  rw [handleState_eq, handleState_eq]
  by_cases c1 : isFiltered d s
  · rw [if_pos c1, if_pos (hf.1 c1)]
    exact ⟨rfl, h1, h2, Or.inl h3, h4, h5, h6, h7⟩
  rw [if_neg c1, if_neg (fun h => c1 (hf.2 h))]
  by_cases c2 : isStop d s 0
  · rw [if_pos c2, if_pos (hstop.1 c2)]
    exact ⟨rfl, rfl, rfl, Or.inl h2, h4, h5, h6, h7⟩
  rw [if_neg c2, if_neg (fun h => c2 (hstop.2 h))]
  by_cases c3 : isStart d s 0
  · rw [if_pos c3, if_pos (hstart.1 c3), h1, h2]
    by_cases c4 : s.sck = 1 ∧ e.sck ≠ 1
    · rw [if_pos c4, if_pos c4]
      exact ⟨rfl, rfl, rfl, Or.inl rfl, rfl, rfl, rfl, rfl⟩
    · rw [if_neg c4, if_neg c4]
      exact ⟨rfl, rfl, rfl, Or.inl rfl, rfl, rfl, rfl, h7⟩
  rw [if_neg c3, if_neg (fun h => c3 (hstart.2 h)), h1, h2, h4, h5, h6, h7]
  by_cases c4 : e.state = .READ_DATA ∧ s.sck = 1 ∧ e.sck ≠ 1
  · rw [if_pos c4, if_pos c4]
    by_cases c5 : (e.pos + 1) % 256 = 8
    · rw [if_pos c5, if_pos c5]
      exact ⟨rfl, rfl, rfl, Or.inl rfl, rfl, rfl, rfl, rfl⟩
    · rw [if_neg c5, if_neg c5]
      exact ⟨rfl, rfl, rfl, Or.inl rfl, rfl, rfl, rfl, rfl⟩
  · rw [if_neg c4, if_neg c4]
    exact ⟨rfl, rfl, rfl, Or.inl rfl, rfl, rfl, rfl, rfl⟩

/-- While the newer stored clock level is 1, a call with `useSS = 0` appends
nothing and changes the stored levels only. -/
theorem handleState_sck_one (d : decoder) (s : Sample) (hd : d.sck = 1) :
    (handleState d s 0).2 = [] ∧ (handleState d s 0).1.state = d.state ∧
    (handleState d s 0).1.pos = d.pos ∧ (handleState d s 0).1.byte_mosi = d.byte_mosi ∧
    (handleState d s 0).1.byte_miso = d.byte_miso ∧ (handleState d s 0).1.time = d.time ∧
    ((handleState d s 0).1.sck = s.sck % 256 ∧ (handleState d s 0).1.sckPrev = 1 ∨
      s.sck = 1 ∧ (handleState d s 0).1.sck = 1) := by
  have c2 : ¬ isStop d s 0 := by simp [isStop, hd]
  have c3 : ¬ isStart d s 0 := by simp [isStart, hd]
  have c4 : ¬ (d.state = .READ_DATA ∧ s.sck = 1 ∧ d.sck ≠ 1) := by simp [hd]
  rw [handleState_eq]
  by_cases c1 : isFiltered d s
  · rw [if_pos c1]
    exact ⟨rfl, rfl, rfl, rfl, rfl, rfl, Or.inr ⟨by rw [← c1.2, hd], hd⟩⟩
  · rw [if_neg c1, if_neg c2, if_neg c3, if_neg c4]
    exact ⟨rfl, rfl, rfl, rfl, rfl, rfl, Or.inl ⟨rfl, hd⟩⟩

theorem handleState_simClock (d e : decoder) (s : Sample) (h : SimClock d e) :
    (handleState d s 0).2 = (handleState e s 0).2 ∧
      SimClock (handleState d s 0).1 (handleState e s 0).1 := by
  obtain ⟨h1, h2, h3, h4, h5, h6, h7⟩ := h
  rcases h3 with h3 | h3
  · exact handleState_clock_only d e s h1 h2 h3 h4 h5 h6 h7
  · obtain ⟨a1, a2, a3, a4, a5, a6, a7⟩ := handleState_sck_one d s h3
    obtain ⟨b1, b2, b3, b4, b5, b6, b7⟩ := handleState_sck_one e s (h2 ▸ h3)
    refine ⟨by rw [a1, b1], by rw [a2, b2, h1], ?_, ?_, by rw [a3, b3, h4], by rw [a4, b4, h5],
      by rw [a5, b5, h6], by rw [a6, b6, h7]⟩
    · rcases a7 with a7 | a7 <;> rcases b7 with b7 | b7
      · rw [a7.1, b7.1]
      · rw [a7.1, b7.2, b7.1]
      · rw [a7.2, b7.1, a7.1]
      · rw [a7.2, b7.2]
    · rcases a7 with a7 | a7 <;> rcases b7 with b7 | b7
      · exact Or.inl (by rw [a7.2, b7.2])
      · exact Or.inr (by rw [a7.1, b7.1])
      · exact Or.inr a7.2
      · exact Or.inr a7.2

theorem run_simClock : ∀ (l : List Sample) (d e : decoder), SimClock d e →
    (run 0 d l).2 = (run 0 e l).2 := by
  intro l
  induction l with
  | nil => intro d e _; rfl
  | cons s rest ih =>
    intro d e h
    obtain ⟨h1, h2⟩ := handleState_simClock d e s h
    simp only [run, h1, ih _ _ h2]

/-- With `useSS = 0`, a duplicate of a clock-high sample appends nothing and
leaves a state that behaves as the one before it. -/
theorem run_dup_high (d : decoder) (s : Sample) (t : Int) (post : List Sample)
    (hs : s.sck = 1) :
    (run 0 d (s :: s.dup t :: post)).2 = (run 0 d (s :: post)).2 := by
  have h1 := handleState_sck_high d s 0 hs
  obtain ⟨a1, a2, a3, a4, a5, a6, a7⟩ := handleState_sck_one (handleState d s 0).1 (s.dup t) h1
  have hsim : SimClock (handleState (handleState d s 0).1 (s.dup t) 0).1 (handleState d s 0).1 := by
    refine ⟨a2, ?_, Or.inr ?_, a3, a4, a5, a6⟩
    · rcases a7 with a7 | a7
      · rw [a7.1, h1]; simp [Sample.dup, hs]
      · rw [a7.2, h1]
    · rcases a7 with a7 | a7
      · rw [a7.1]; simp [Sample.dup, hs]
      · exact a7.2
  simp only [run, a1, List.nil_append, run_simClock post _ _ hsim]

end SPItdk

/-! ## Capacity of the output data sets -/

namespace SPItdk
open SPI

theorem handleState_rows_le (d : decoder) (s : Sample) (useSS : Int) :
    (dataStream (handleState d s useSS).2).length ≤ 1 ∧
      (eventStream (handleState d s useSS).2).length ≤ 1 := by
  rw [handleState_eq]
  split_ifs <;> simp [stopRows, startRow]

end SPItdk

namespace SPItdkSS
open SPI

theorem handleState_rows_le_ss (d : decoder) (s : Sample) :
    (dataStream (handleState d s).2).length ≤ 1 ∧
      (eventStream (handleState d s).2).length ≤ 1 := by
  rw [handleState_eq_ss]
  split_ifs <;> simp

end SPItdkSS

/-! ## Stop, event texts and initial state -/

namespace SPItdk
open SPI

/-- The clock stop of `SPI-tdk.c`: with `useSS = 0`, stored clock levels high
then low and a clock-low sample, the call writes the two stop rows, sets the
state to `IDLE` and refreshes the stored levels; no other field is written. -/
theorem handleState_clock_stop (d : decoder) (s : Sample) (hp : d.sckPrev = 1) (hd : d.sck = 0)
    (hs : s.sck = 0) :
    handleState d s 0 =
      ({ d with state := .IDLE, ss := s.ss % 256, sckPrev := 0, sck := 0 }, stopRows s.time) := by
  rw [handleState_eq]
  simp [isFiltered, isStop, hp, hd, hs]

theorem handleState_events (d : decoder) (s : Sample) (useSS : Int) :
    ∀ e ∈ eventStream (handleState d s useSS).2, e.text = "START" ∨ e.text = "STOP" := by
  rw [handleState_eq]
  split_ifs <;> simp [stopRows, startRow]

theorem decode_events (useSS : Int) (junk : decoder) (samples : List Sample) :
    ∀ e ∈ eventStream (decode useSS junk samples).2, e.text = "START" ∨ e.text = "STOP" := by
  have h := run_inv useSS
    (fun _ _ tr => ∀ e ∈ eventStream tr, e.text = "START" ∨ e.text = "STOP")
    (fun _ d tr s hd => by
      intro e he
      rw [eventStream_append, List.mem_append] at he
      rcases he with he | he
      · exact hd e he
      · exact handleState_events d s useSS e he)
    samples [] (newDecoder junk) [] (by simp)
  simpa [decode] using h

end SPItdk

namespace SPItdkSS
open SPI

/-- The stop of `SPI-tdk_SS.c`: stored select 0 and a sample with select 1. -/
theorem handleState_stop (d : decoder) (s : Sample) (hd : d.ss = 0) (hs : s.ss = 1) :
    handleState d s =
      ({ d with state := .IDLE, ss := 1, sck := s.sck % 256, mosi := s.mosi % 256,
                miso := s.miso % 256 }, [.event ⟨s.time, "STOP", none⟩]) := by
  rw [handleState_eq_ss]
  simp [hd, hs]

theorem handleState_events_ss (d : decoder) (s : Sample) :
    ∀ e ∈ eventStream (handleState d s).2,
      e.text = "START" ∨ e.text = "STOP" ∨ e.text = "DATA" := by
  rw [handleState_eq_ss]
  split_ifs <;> simp

theorem decode_events_ss (junk : decoder) (samples : List Sample) :
    ∀ e ∈ eventStream (decode junk samples).2,
      e.text = "START" ∨ e.text = "STOP" ∨ e.text = "DATA" := by
  have h := run_inv_ss
    (fun _ _ tr => ∀ e ∈ eventStream tr, e.text = "START" ∨ e.text = "STOP" ∨ e.text = "DATA")
    (fun _ d tr s hd => by
      intro e he
      rw [eventStream_append, List.mem_append] at he
      rcases he with he | he
      · exact hd e he
      · exact handleState_events_ss d s e he)
    samples [] (newDecoder junk) [] (by simp)
  simpa [decode] using h

end SPItdkSS

/-! ## Counting bytes, stops and clock-high samples -/

namespace SPI

theorem clockHighCount_concat (pre : List Sample) (s : Sample) :
    clockHighCount (pre ++ [s]) = clockHighCount pre + (if s.sck = 1 then 1 else 0) := by
  simp [clockHighCount, List.countP_append, List.countP_cons]

theorem byteCount_append (a b : List Emit) : byteCount (a ++ b) = byteCount a + byteCount b := by
  simp [byteCount, List.countP_append]

theorem stopCount_append (a b : List Emit) : stopCount (a ++ b) = stopCount a + stopCount b := by
  simp [stopCount, List.countP_append]

end SPI

namespace SPItdk
open SPI

/-- What one call adds to the byte count, and the bit index it leaves, against
whether the sample is clock-high. -/
theorem handleState_byteCount (d : decoder) (s : Sample) (useSS : Int) :
    8 * byteCount (handleState d s useSS).2 +
        (if (handleState d s useSS).1.state = .READ_DATA then (handleState d s useSS).1.pos
          else 0) ≤
      (if d.state = .READ_DATA then d.pos else 0) + (if s.sck = 1 then 1 else 0) := by
  rw [handleState_eq]
  split_ifs <;> simp_all [byteCount, stopRows, startRow, DataRow.isByte] <;> omega

theorem decode_byteCount (useSS : Int) (junk : decoder) (samples : List Sample) :
    8 * byteCount (decode useSS junk samples).2 +
        (if (decode useSS junk samples).1.state = .READ_DATA then (decode useSS junk samples).1.pos
          else 0) ≤ clockHighCount samples := by
  have h := run_inv useSS
    (fun pre d tr => 8 * byteCount tr + (if d.state = .READ_DATA then d.pos else 0) ≤
      clockHighCount pre)
    (fun pre d tr s hd => by
      have h1 := handleState_byteCount d s useSS
      beta_reduce at hd ⊢
      rw [byteCount_append, clockHighCount_concat]
      linarith)
    samples [] (newDecoder junk) [] (by simp [newDecoder, byteCount, clockHighCount])
  simpa [decode] using h

end SPItdk

namespace SPItdkSS
open SPI

theorem handleState_rowCount (d : decoder) (s : Sample) :
    8 * (dataStream (handleState d s).2).length +
        (if (handleState d s).1.state = .READ_DATA then (handleState d s).1.pos else 0) ≤
      (if d.state = .READ_DATA then d.pos else 0) + (if s.sck = 1 then 1 else 0) := by
  rw [handleState_eq_ss]
  split_ifs <;> simp_all <;> omega

theorem decode_rowCount (junk : decoder) (samples : List Sample) :
    8 * (dataStream (decode junk samples).2).length +
        (if (decode junk samples).1.state = .READ_DATA then (decode junk samples).1.pos
          else 0) ≤ clockHighCount samples := by
  have h := run_inv_ss
    (fun pre d tr => 8 * (dataStream tr).length + (if d.state = .READ_DATA then d.pos else 0) ≤
      clockHighCount pre)
    (fun pre d tr s hd => by
      have h1 := handleState_rowCount d s
      beta_reduce at hd ⊢
      rw [dataStream_append, List.length_append, clockHighCount_concat]
      linarith)
    samples [] (newDecoder junk) [] (by simp [newDecoder, clockHighCount])
  simpa [decode] using h

end SPItdkSS

namespace SPItdk
open SPI

theorem handleState_stop_rows (d : decoder) (s : Sample) (useSS : Int) (e : EventRow)
    (he : e ∈ eventStream (handleState d s useSS).2) (ht : e.text = "STOP") :
    (handleState d s useSS).2 = stopRows s.time := by
  rw [handleState_eq] at he ⊢
  split_ifs at he ⊢ <;> simp [stopRows, startRow] at he ⊢
  all_goals
    subst he
    simp at ht

theorem handleState_lane_count (d : decoder) (s : Sample) (useSS : Int) :
    (dataStream (handleState d s useSS).2).length =
      byteCount (handleState d s useSS).2 + stopCount (handleState d s useSS).2 := by
  rw [handleState_eq]
  split_ifs <;> simp [byteCount, stopCount, stopRows, startRow, DataRow.isByte]

theorem handleState_zero_rows (d : decoder) (s : Sample) (useSS : Int) (r : DataRow)
    (hr : r ∈ dataStream (handleState d s useSS).2) (hn : ¬ r.isByte) :
    r.mosi = 0 ∧ r.miso = 0 ∧
      (⟨r.time, "STOP", some .scarlet⟩ : EventRow) ∈ eventStream (handleState d s useSS).2 := by
  rw [handleState_eq] at hr ⊢
  split_ifs at hr ⊢ <;> simp [stopRows, startRow] at hr ⊢
  all_goals
    subst hr
    simp [DataRow.isByte] at hn ⊢

theorem decode_lane_count (useSS : Int) (junk : decoder) (samples : List Sample) :
    (dataStream (decode useSS junk samples).2).length =
      byteCount (decode useSS junk samples).2 + stopCount (decode useSS junk samples).2 := by
  have h := run_inv useSS
    (fun _ _ tr => (dataStream tr).length = byteCount tr + stopCount tr)
    (fun pre d tr s hd => by
      have h1 := handleState_lane_count d s useSS
      beta_reduce at hd ⊢
      rw [dataStream_append, List.length_append, byteCount_append, stopCount_append]
      omega)
    samples [] (newDecoder junk) [] (by simp [byteCount, stopCount])
  simpa [decode] using h

theorem decode_zero_rows (useSS : Int) (junk : decoder) (samples : List Sample) :
    ∀ r ∈ dataStream (decode useSS junk samples).2, ¬ r.isByte →
      r.mosi = 0 ∧ r.miso = 0 ∧
        (⟨r.time, "STOP", some .scarlet⟩ : EventRow) ∈ eventStream (decode useSS junk samples).2 := by
  have h := run_inv useSS
    (fun _ _ tr => ∀ r ∈ dataStream tr, ¬ r.isByte → r.mosi = 0 ∧ r.miso = 0 ∧
      (⟨r.time, "STOP", some .scarlet⟩ : EventRow) ∈ eventStream tr)
    (fun pre d tr s hd => by
      beta_reduce at hd ⊢
      intro r hr hn
      rw [dataStream_append, List.mem_append] at hr
      rw [eventStream_append, List.mem_append]
      rcases hr with hr | hr
      · obtain ⟨a, b, c⟩ := hd r hr hn
        exact ⟨a, b, Or.inl c⟩
      · obtain ⟨a, b, c⟩ := handleState_zero_rows d s useSS r hr hn
        exact ⟨a, b, Or.inr c⟩)
    samples [] (newDecoder junk) [] (by simp)
  simpa [decode] using h

end SPItdk

/-! ## Phase invariants and alternation of the frame events -/

namespace SPI

theorem alternates_concat_start (ev : List EventRow) (x : EventRow) (h : Alternates ev)
    (hx : x.text = "START") (hl : ∀ e, ev.getLast? = some e → e.text = "STOP") :
    Alternates (ev ++ [x]) := by
  obtain ⟨h1, h2, h3⟩ := h
  refine ⟨?_, ?_, ?_⟩
  · rw [List.chain'_append]
    refine ⟨h1, List.chain'_singleton x, ?_⟩
    intro a ha b hb
    simp only [List.head?_cons, Option.mem_def, Option.some.injEq] at hb
    subst hb
    rw [hl a ha, hx]
    decide
  · intro e he
    rw [List.mem_append, List.mem_singleton] at he
    rcases he with he | he
    · exact h2 e he
    · exact Or.inl (he ▸ hx)
  · intro e he
    cases ev with
    | nil => simp at he; exact he ▸ hx
    | cons a ev => exact h3 e (by simpa using he)

theorem alternates_concat_stop (ev : List EventRow) (x : EventRow) (h : Alternates ev)
    (hx : x.text = "STOP") (hl : ∃ e, ev.getLast? = some e ∧ e.text = "START") :
    Alternates (ev ++ [x]) := by
  obtain ⟨h1, h2, h3⟩ := h
  obtain ⟨l, hl1, hl2⟩ := hl
  refine ⟨?_, ?_, ?_⟩
  · rw [List.chain'_append]
    refine ⟨h1, List.chain'_singleton x, ?_⟩
    intro a ha b hb
    simp only [List.head?_cons, Option.mem_def, Option.some.injEq] at hb ha
    subst hb
    rw [hl1] at ha
    simp only [Option.some.injEq] at ha
    subst ha
    rw [hl2, hx]
    decide
  · intro e he
    rw [List.mem_append, List.mem_singleton] at he
    rcases he with he | he
    · exact h2 e he
    · exact Or.inr (he ▸ hx)
  · intro e he
    cases ev with
    | nil => simp at hl1
    | cons a ev => exact h3 e (by simpa using he)

end SPI

namespace SPItdk
open SPI

/-- The state left by a call of `handleState` of `SPI-tdk.c`. -/
theorem handleState_state (d : decoder) (s : Sample) (useSS : Int) :
    (handleState d s useSS).1.state =
      if isFiltered d s then d.state
      else if isStop d s useSS then .IDLE
      else if isStart d s useSS then .READ_DATA
      else d.state := by
  rw [handleState_eq]
  split_ifs <;> rfl

/-- The stored levels left by a call that is not filtered. -/
theorem handleState_levels (d : decoder) (s : Sample) (useSS : Int) (h : ¬ isFiltered d s) :
    (handleState d s useSS).1.sck = s.sck % 256 ∧ (handleState d s useSS).1.sckPrev = d.sck ∧
      (handleState d s useSS).1.ss = s.ss % 256 := by
  rw [handleState_eq, if_neg h]
  split_ifs <;> exact ⟨rfl, rfl, rfl⟩

/-- The event rows appended by a call of `handleState` of `SPI-tdk.c`. -/
theorem handleState_eventStream (d : decoder) (s : Sample) (useSS : Int) :
    eventStream (handleState d s useSS).2 =
      if isFiltered d s then []
      else if isStop d s useSS then [⟨s.time, "STOP", some .scarlet⟩]
      else if isStart d s useSS ∧ d.state = .IDLE then [⟨s.time, "START", some .lime⟩]
      else [] := by
  rw [handleState_eq]
  split_ifs <;> simp_all [stopRows, startRow]

theorem handleState_clockPhase (d : decoder) (s : Sample) (h : ClockPhase d) (hs : s.sck ≤ 1) :
    ClockPhase (handleState d s 0).1 := by
  obtain ⟨h1, h2, h3, h4⟩ := h
  have hm : s.sck % 256 = s.sck := by omega
  by_cases c1 : isFiltered d s
  · have e : handleState d s 0 = (d, []) := by rw [handleState_eq, if_pos c1]
    rw [e]; exact ⟨h1, h2, h3, h4⟩
  obtain ⟨l1, l2, -⟩ := handleState_levels d s 0 c1
  have hst := handleState_state d s 0
  rw [if_neg c1] at hst
  unfold ClockPhase
  rw [l1, l2, hm]
  simp only [isFiltered] at c1
  by_cases c2 : isStop d s 0
  · rw [if_pos c2] at hst
    have c2' : d.sckPrev = 1 ∧ d.sck = 0 ∧ s.sck = 0 := by simpa [isStop] using c2
    rw [hst]
    exact ⟨by simp [c2'.2.1, c2'.2.2], by simp, h4, hs⟩
  rw [if_neg c2] at hst
  have c2' : ¬ (d.sckPrev = 1 ∧ d.sck = 0 ∧ s.sck = 0) := by simpa [isStop] using c2
  by_cases c3 : isStart d s 0
  · rw [if_pos c3] at hst
    have c3' : d.sckPrev = 0 ∧ d.sck = 0 ∧ s.sck = 1 := by simpa [isStart] using c3
    rw [hst]
    exact ⟨by simp [c3'.2.2], by simp, h4, hs⟩
  rw [if_neg c3] at hst
  have c3' : ¬ (d.sckPrev = 0 ∧ d.sck = 0 ∧ s.sck = 1) := by simpa [isStart] using c3
  rw [hst]
  have hne : d.state ≠ .IDLE := by
    intro hi
    have := h1.1 hi
    omega
  have key : ¬ (d.sck = 0 ∧ s.sck = 0) := by
    intro hk
    have : ¬ (d.sckPrev = 0 ∧ d.sck = 0) := fun h => hne (h1.2 h)
    omega
  exact ⟨⟨fun h => absurd h hne, fun h => absurd h key⟩, h2, h4, hs⟩

theorem handleState_selectPhase (d : decoder) (s : Sample) (h : SelectPhase d) (hs : s.ss ≤ 1) :
    SelectPhase (handleState d s 1).1 := by
  obtain ⟨h1, h2, h3⟩ := h
  have hm : s.ss % 256 = s.ss := by omega
  by_cases c1 : isFiltered d s
  · have e : handleState d s 1 = (d, []) := by rw [handleState_eq, if_pos c1]
    rw [e]; exact ⟨h1, h2, h3⟩
  obtain ⟨-, -, l3⟩ := handleState_levels d s 1 c1
  have hst := handleState_state d s 1
  rw [if_neg c1] at hst
  unfold SelectPhase
  rw [l3, hm]
  by_cases c2 : isStop d s 1
  · rw [if_pos c2] at hst
    have c2' : d.ss = 0 ∧ s.ss = 1 := by simpa [isStop] using c2
    rw [hst]
    exact ⟨by simp [c2'.2], by simp, hs⟩
  rw [if_neg c2] at hst
  have c2' : ¬ (d.ss = 0 ∧ s.ss = 1) := by simpa [isStop] using c2
  by_cases c3 : isStart d s 1
  · rw [if_pos c3] at hst
    have c3' : d.ss = 1 ∧ s.ss = 0 := by simpa [isStart] using c3
    rw [hst]
    exact ⟨by simp [c3'.2], by simp, hs⟩
  rw [if_neg c3] at hst
  have c3' : ¬ (d.ss = 1 ∧ s.ss = 0) := by simpa [isStart] using c3
  rw [hst]
  have key : s.ss = d.ss := by omega
  rw [key]
  exact ⟨h1, h2, h3⟩

/-- One call keeps the alternation, provided a start is only detected in state
`IDLE` and a stop only in state `READ_DATA`. -/
theorem handleState_altInv (d : decoder) (tr : List Emit) (s : Sample) (useSS : Int)
    (h : AltInv d tr) (hstart : isStart d s useSS → d.state = .IDLE)
    (hstop : isStop d s useSS → d.state = .READ_DATA) :
    AltInv (handleState d s useSS).1 (tr ++ (handleState d s useSS).2) := by
  obtain ⟨h1, h2, h3⟩ := h
  unfold AltInv
  rw [eventStream_append, handleState_eventStream, handleState_state]
  by_cases c1 : isFiltered d s
  · simp only [if_pos c1, List.append_nil]
    exact ⟨h1, h2, h3⟩
  simp only [if_neg c1]
  by_cases c2 : isStop d s useSS
  · simp only [if_pos c2]
    refine ⟨alternates_concat_stop _ _ h1 rfl (h2 (hstop c2)), by simp, ?_⟩
    intro _ e he
    rw [List.getLast?_concat] at he
    simp only [Option.some.injEq] at he
    rw [← he]
  simp only [if_neg c2]
  by_cases c3 : isStart d s useSS
  · have hi := hstart c3
    have c4 : isStart d s useSS ∧ d.state = .IDLE := ⟨c3, hi⟩
    simp only [if_pos c3, if_pos c4]
    refine ⟨alternates_concat_start _ _ h1 rfl (h3 hi), ?_, by simp⟩
    intro _
    exact ⟨_, List.getLast?_concat _, rfl⟩
  have c4 : ¬ (isStart d s useSS ∧ d.state = .IDLE) := fun h => c3 h.1
  simp only [if_neg c3, if_neg c4, List.append_nil]
  exact ⟨h1, h2, h3⟩

end SPItdk

namespace SPItdk
open SPI

theorem decode_clockPhase (junk : decoder) (samples : List Sample)
    (hs : ∀ x ∈ samples, x.sck ≤ 1) :
    ClockPhase (decode 0 junk samples).1 ∧
      AltInv (decode 0 junk samples).1 (decode 0 junk samples).2 := by
  have h := run_inv 0
    (fun pre d tr => (∀ x ∈ pre, x.sck ≤ 1) → ClockPhase d ∧ AltInv d tr)
    (fun pre d tr s hd => by
      beta_reduce at hd ⊢
      intro hall
      obtain ⟨hc, ha⟩ := hd (fun x hx => hall x (by simp [hx]))
      refine ⟨handleState_clockPhase d s hc (hall s (by simp)), ?_⟩
      apply handleState_altInv d tr s 0 ha
      · intro c3
        have c3' : d.sckPrev = 0 ∧ d.sck = 0 ∧ s.sck = 1 := by simpa [isStart] using c3
        exact hc.1.2 ⟨c3'.1, c3'.2.1⟩
      · intro c2
        have c2' : d.sckPrev = 1 ∧ d.sck = 0 ∧ s.sck = 0 := by simpa [isStop] using c2
        have hne : d.state ≠ .IDLE := by
          intro hi
          have := hc.1.1 hi
          omega
        have hinv := hc.2.1
        cases hst : d.state <;> simp_all)
    samples [] (newDecoder junk) []
    (fun _ => ⟨by simp [ClockPhase, newDecoder], by simp [AltInv, Alternates, newDecoder]⟩)
  simpa [decode] using h hs

theorem decode_selectPhase (junk : decoder) (samples : List Sample)
    (hs : ∀ x ∈ samples, x.ss ≤ 1) :
    SelectPhase (decode 1 junk samples).1 ∧
      AltInv (decode 1 junk samples).1 (decode 1 junk samples).2 := by
  have h := run_inv 1
    (fun pre d tr => (∀ x ∈ pre, x.ss ≤ 1) → SelectPhase d ∧ AltInv d tr)
    (fun pre d tr s hd => by
      beta_reduce at hd ⊢
      intro hall
      obtain ⟨hc, ha⟩ := hd (fun x hx => hall x (by simp [hx]))
      refine ⟨handleState_selectPhase d s hc (hall s (by simp)), ?_⟩
      apply handleState_altInv d tr s 1 ha
      · intro c3
        have c3' : d.ss = 1 ∧ s.ss = 0 := by simpa [isStart] using c3
        exact hc.1.2 c3'.1
      · intro c2
        have c2' : d.ss = 0 ∧ s.ss = 1 := by simpa [isStop] using c2
        have hne : d.state ≠ .IDLE := by
          intro hi
          have := hc.1.1 hi
          omega
        have hinv := hc.2.1
        cases hst : d.state <;> simp_all)
    samples [] (newDecoder junk) []
    (fun _ => ⟨by simp [SelectPhase, newDecoder], by simp [AltInv, Alternates, newDecoder]⟩)
  simpa [decode] using h hs

/-- A start detected in state `IDLE` by a call that is not filtered appends the
`"START"` row. -/
theorem handleState_start_row (d : decoder) (s : Sample) (useSS : Int) (hf : ¬ isFiltered d s)
    (h : isStart d s useSS) (hi : d.state = .IDLE) :
    startRow s.time ∈ (handleState d s useSS).2 := by
  have hns : ¬ isStop d s useSS := fun hs => not_stop_and_start d s useSS ⟨hs, h⟩
  have he := handleState_eventStream d s useSS
  rw [if_neg hf, if_neg hns, if_pos ⟨h, hi⟩] at he
  have : (⟨s.time, "START", some .lime⟩ : EventRow) ∈ eventStream (handleState d s useSS).2 := by
    rw [he]; simp
  exact mem_eventStream.1 this

end SPItdk

/-! ## A clock sampled more than twice per period -/

namespace SPI

theorem noShortLow_initial (pre post : List Sample) (h : NoShortLow (pre ++ post)) :
    NoShortLow pre := by
  intro a x y z b hpre
  exact h a x y z (b ++ post) (by rw [hpre]; simp)

end SPI

namespace SPItdk
open SPI

theorem handleState_slowClockInv (pre : List Sample) (d : decoder) (tr : List Emit) (s : Sample)
    (h : SlowClockInv pre d tr) (hs : s.sck ≤ 1) (hlow : NoShortLow (pre ++ [s])) :
    SlowClockInv (pre ++ [s]) (handleState d s 0).1 (tr ++ (handleState d s 0).2) := by
  obtain ⟨hc, l1, l2, hp, hb⟩ := h
  have hc' := handleState_clockPhase d s hc hs
  have hm : s.sck % 256 = s.sck := by omega
  refine ⟨hc', ?_⟩
  by_cases c1 : isFiltered d s
  · have e : handleState d s 0 = (d, []) := by rw [handleState_eq, if_pos c1]
    rw [e, List.append_nil]
    obtain ⟨f1, f2⟩ := c1
    refine ⟨fun h1 => ⟨pre, s, rfl, ?_⟩, fun h1 h0 => ?_, hp, hb⟩
    · have h1' : d.sck = 1 := h1
      omega
    · have h1' : d.sckPrev = 1 := h1
      have h0' : d.sck = 0 := h0
      omega
  obtain ⟨e1, e2, -⟩ := handleState_levels d s 0 c1
  rw [e1, e2, hm, byteCount_append, hb]
  refine ⟨fun h1 => ⟨pre, s, rfl, h1⟩, ?_, ?_⟩
  · intro h1 h0
    obtain ⟨a, x, hpre, hx⟩ := l1 h1
    exact ⟨a, x, s, by rw [hpre]; simp, hx, h0⟩
  rw [handleState_eq, if_neg c1]
  by_cases c2 : isStop d s 0
  · rw [if_pos c2]
    simp [byteCount, stopRows, DataRow.isByte]
  rw [if_neg c2]
  by_cases c3 : isStart d s 0
  · rw [if_pos c3]
    split_ifs <;> simp [byteCount, startRow]
  rw [if_neg c3]
  have c3' : ¬ (d.sckPrev = 0 ∧ d.sck = 0 ∧ s.sck = 1) := by simpa [isStart] using c3
  by_cases c4 : d.state = .READ_DATA ∧ s.sck = 1 ∧ d.sck ≠ 1
  · exfalso
    obtain ⟨-, -, h3, h4⟩ := hc
    have hd0 : d.sck = 0 := by omega
    have hd1 : d.sckPrev = 1 := by omega
    obtain ⟨a, x, y, hpre, hx, hy⟩ := l2 hd1 hd0
    exact hlow a x y s [] (by rw [hpre]; simp) ⟨hx, hy, c4.2.1⟩
  · rw [if_neg c4]
    exact ⟨hp, by simp [byteCount]⟩

theorem decode_slowClockInv (junk : decoder) (samples : List Sample)
    (hs : ∀ x ∈ samples, x.sck ≤ 1) (hlow : NoShortLow samples) :
    SlowClockInv samples (decode 0 junk samples).1 (decode 0 junk samples).2 := by
  have h := run_inv 0
    (fun pre d tr => (∀ x ∈ pre, x.sck ≤ 1) → NoShortLow pre → SlowClockInv pre d tr)
    (fun pre d tr s hd => by
      beta_reduce at hd ⊢
      intro hall hl
      exact handleState_slowClockInv pre d tr s
        (hd (fun x hx => hall x (by simp [hx])) (noShortLow_initial pre [s] hl))
        (hall s (by simp)) hl)
    samples [] (newDecoder junk) []
    (fun _ _ => ⟨by simp [ClockPhase, newDecoder], by simp [newDecoder], by simp [newDecoder],
      by simp [newDecoder], by simp [byteCount]⟩)
  simpa [decode] using h hs hlow

end SPItdk

namespace SPI

theorem noShortLowB_tail (w : Sample) (rest : List Sample) (h : noShortLowB (w :: rest) = true) :
    noShortLowB rest = true := by
  rcases rest with _ | ⟨r1, _ | ⟨r2, rs⟩⟩
  · rfl
  · rfl
  · simp only [noShortLowB, Bool.and_eq_true] at h
    exact h.2

theorem noShortLow_of_check : ∀ (samples : List Sample), noShortLowB samples = true →
    NoShortLow samples := by
  intro samples h a
  induction a generalizing samples with
  | nil =>
    intro x y z b hs
    subst hs
    simp only [List.nil_append, noShortLowB, Bool.and_eq_true, Bool.not_eq_true',
      Bool.and_eq_false_imp, decide_eq_true_eq, decide_eq_false_iff_not] at h
    intro hc
    exact h.1 ⟨hc.1, hc.2.1⟩ hc.2.2
  | cons w a ih =>
    intro x y z b hs
    subst hs
    exact ih _ (noShortLowB_tail w _ h) x y z b rfl

end SPI

/-! ## The claims -/

namespace SPI

/-- C1: `SPI-tdk.c` with `useSS = 0`, from the initial state: for a sample
sequence whose SCK alternates 1, 0, 1, 0, ... with `8 * n` high samples (ending
with the last low sample or with the last high one) and MOSI, MISO levels in
{0,1} at the high samples, the rows appended are one `"START"` and then exactly
`n` data rows; the `k`-th carries, for MOSI and for MISO,
`b7*128 + b6*64 + ... + b0*1` of the `k`-th group of eight high samples in
arrival order. -/
theorem C1_clock_framed_bit_order (junk : SPItdk.decoder) (n : Nat) (p : Sample × Sample)
    (ps : List (Sample × Sample)) (hlen : (p :: ps).length = 8 * n)
    (hok : ∀ q ∈ p :: ps, SPItdk.PulseOK q) (samples : List Sample)
    (hs : samples = samplesOf (p :: ps) ∨ samples = (samplesOf (p :: ps)).dropLast) :
    (SPItdk.decode 0 junk samples).2 =
      SPItdk.startRow p.1.time :: (expectedBytes ((p :: ps).map Prod.fst)).map Emit.data ∧
    (expectedBytes ((p :: ps).map Prod.fst)).length = n := by
  have hmain : (SPItdk.decode 0 junk (samplesOf (p :: ps))).2 =
      SPItdk.startRow p.1.time :: (expectedBytes ((p :: ps).map Prod.fst)).map Emit.data ∧
      (expectedBytes ((p :: ps).map Prod.fst)).length = n := by
    rcases ps with _ | ⟨p6, _ | ⟨p5, _ | ⟨p4, _ | ⟨p3, _ | ⟨p2, _ | ⟨p1, _ | ⟨p0, rest⟩⟩⟩⟩⟩⟩⟩
    all_goals try (simp at hlen <;> omega)
    obtain ⟨m, rfl⟩ : ∃ m, n = m + 1 := ⟨n - 1, by simp at hlen; omega⟩
    have hlen2 : rest.length = 8 * m := by simp at hlen; omega
    simp only [List.mem_cons, forall_eq_or_imp] at hok
    obtain ⟨k7, k6, k5, k4, k3, k2, k1, k0, hrest⟩ := hok
    have hfirst := SPItdk.handleState_first_high junk p.1 k7.1
    have htail := SPItdk.run_group_tail (SPItdk.handleState (SPItdk.newDecoder junk) p.1 0).1
      p.2 p6 p5 p4 p3 p2 p1 p0 (samplesOf rest) (by rw [hfirst]) (by rw [hfirst])
      (by rw [hfirst]) k7.2.1 k6 k5 k4 k3 k2 k1 k0
    obtain ⟨ih1, ih2⟩ := SPItdk.run_groups m rest hlen2 hrest
      { (SPItdk.handleState (SPItdk.newDecoder junk) p.1 0).1 with
          pos := 0, byte_mosi := 0, byte_miso := 0, ss := p0.2.ss % 256, sckPrev := 1, sck := 0 }
      (by rw [hfirst]) rfl rfl rfl rfl rfl
    have hm := SPItdk.orBit_chain_eq _ _ _ _ _ _ _ _ k7.2.2.1 k6.2.2.1 k5.2.2.1 k4.2.2.1
      k3.2.2.1 k2.2.2.1 k1.2.2.1 k0.2.2.1
    have hi := SPItdk.orBit_chain_eq _ _ _ _ _ _ _ _ k7.2.2.2 k6.2.2.2 k5.2.2.2 k4.2.2.2
      k3.2.2.2 k2.2.2.2 k1.2.2.2 k0.2.2.2
    constructor
    · simp only [SPItdk.decode, samplesOf, List.map_cons, expectedBytes]
      rw [SPItdk.run_cons, htail, ih1]
      rw [hfirst]
      simp [hm, hi]
    · simp only [List.map_cons, expectedBytes, List.length_cons, ih2]
  rcases hs with hs | hs
  · rw [hs]; exact hmain
  · rw [hs]
    refine ⟨?_, hmain.2⟩
    have := SPItdk.run_dropLast (SPItdk.newDecoder junk) (p :: ps) (by simp) hok
    rw [SPItdk.decode, this]
    exact hmain.1

/-- C1, at the input of the spec's first scenario: eight rising edges carrying
MOSI bits 1,0,1,0,1,0,1,0 give the byte 0xAA, time tagged with the first edge. -/
theorem C1_clock_framed_bit_order_witness :
    (SPItdk.decode 0 ⟨.INVALID, 9, 9, 9, 9, 9, 9, 9, 9, 9⟩
      [⟨1, 1, 1, 0, 0⟩, ⟨2, 0, 0, 0, 0⟩, ⟨3, 1, 0, 1, 0⟩, ⟨4, 0, 0, 0, 0⟩,
       ⟨5, 1, 1, 0, 0⟩, ⟨6, 0, 0, 0, 0⟩, ⟨7, 1, 0, 1, 0⟩, ⟨8, 0, 0, 0, 0⟩,
       ⟨9, 1, 1, 0, 0⟩, ⟨10, 0, 0, 0, 0⟩, ⟨11, 1, 0, 1, 0⟩, ⟨12, 0, 0, 0, 0⟩,
       ⟨13, 1, 1, 0, 0⟩, ⟨14, 0, 0, 0, 0⟩, ⟨15, 1, 0, 1, 0⟩, ⟨16, 0, 0, 0, 0⟩]).2 =
      [.event ⟨1, "START", some .lime⟩, .data ⟨1, 170, 85, some .yellow, some .lavender⟩] :=
  (C1_clock_framed_bit_order ⟨.INVALID, 9, 9, 9, 9, 9, 9, 9, 9, 9⟩ 1
    (⟨1, 1, 1, 0, 0⟩, ⟨2, 0, 0, 0, 0⟩)
    [(⟨3, 1, 0, 1, 0⟩, ⟨4, 0, 0, 0, 0⟩), (⟨5, 1, 1, 0, 0⟩, ⟨6, 0, 0, 0, 0⟩),
     (⟨7, 1, 0, 1, 0⟩, ⟨8, 0, 0, 0, 0⟩), (⟨9, 1, 1, 0, 0⟩, ⟨10, 0, 0, 0, 0⟩),
     (⟨11, 1, 0, 1, 0⟩, ⟨12, 0, 0, 0, 0⟩), (⟨13, 1, 1, 0, 0⟩, ⟨14, 0, 0, 0, 0⟩),
     (⟨15, 1, 0, 1, 0⟩, ⟨16, 0, 0, 0, 0⟩)] (by decide) (by decide) _ (Or.inl rfl)).1

/-- C2: in `SPI-tdk.c` (any `useSS`), for every sample sequence `pre ++ s :: _`
from the initial state, every byte row appended by the call on `s` carries the
time of an earlier sample `y` of the sequence: the most recent one that was
captured while the bit index was 0 (no sample between `y` and `s`, nor `s`
itself, was captured at bit index 0). -/
theorem C2_byte_time_is_first_bit (useSS : Int) (junk : SPItdk.decoder) (pre : List Sample)
    (s : Sample) (r : DataRow)
    (hr : Emit.data r ∈ (SPItdk.handleState (SPItdk.decode useSS junk pre).1 s useSS).2)
    (hy : r.isByte) :
    ∃ a y b, pre = a ++ y :: b ∧
      SPItdk.latches useSS (SPItdk.decode useSS junk a).1 y ∧
      (∀ b1 z b2, b = b1 ++ z :: b2 →
        ¬ SPItdk.latches useSS (SPItdk.decode useSS junk (a ++ y :: b1)).1 z) ∧
      ¬ SPItdk.latches useSS (SPItdk.decode useSS junk pre).1 s ∧
      r.time = y.time := by
  obtain ⟨h1, h2, h3, h4⟩ := SPItdk.byte_row_origin useSS _ s r hr hy
  obtain ⟨a, y, b, e1, e2, e3, e4⟩ := (SPItdk.decode_latchInv useSS junk pre).2 h1 h2
  exact ⟨a, y, b, e1, e2, e3, h4, by rw [h3, e4]⟩

/-- C2, at the input of the spec's first scenario: the byte row appended by the
call on the eighth clock-high sample (time 15) carries the time of a sample
that precedes it in the sequence. -/
theorem C2_byte_time_is_first_bit_witness :
    ∃ a y b, ([⟨1, 1, 1, 0, 0⟩, ⟨2, 0, 0, 0, 0⟩, ⟨3, 1, 0, 1, 0⟩, ⟨4, 0, 0, 0, 0⟩,
        ⟨5, 1, 1, 0, 0⟩, ⟨6, 0, 0, 0, 0⟩, ⟨7, 1, 0, 1, 0⟩, ⟨8, 0, 0, 0, 0⟩,
        ⟨9, 1, 1, 0, 0⟩, ⟨10, 0, 0, 0, 0⟩, ⟨11, 1, 0, 1, 0⟩, ⟨12, 0, 0, 0, 0⟩,
        ⟨13, 1, 1, 0, 0⟩, ⟨14, 0, 0, 0, 0⟩] : List Sample) = a ++ y :: b ∧
      (1 : Int) = y.time := by
  obtain ⟨a, y, b, h1, _, _, _, h5⟩ := C2_byte_time_is_first_bit 0
    ⟨.INVALID, 9, 9, 9, 9, 9, 9, 9, 9, 9⟩
    [⟨1, 1, 1, 0, 0⟩, ⟨2, 0, 0, 0, 0⟩, ⟨3, 1, 0, 1, 0⟩, ⟨4, 0, 0, 0, 0⟩,
     ⟨5, 1, 1, 0, 0⟩, ⟨6, 0, 0, 0, 0⟩, ⟨7, 1, 0, 1, 0⟩, ⟨8, 0, 0, 0, 0⟩,
     ⟨9, 1, 1, 0, 0⟩, ⟨10, 0, 0, 0, 0⟩, ⟨11, 1, 0, 1, 0⟩, ⟨12, 0, 0, 0, 0⟩,
     ⟨13, 1, 1, 0, 0⟩, ⟨14, 0, 0, 0, 0⟩]
    ⟨15, 1, 0, 1, 0⟩ ⟨1, 170, 85, some .yellow, some .lavender⟩ (by decide) (by decide)
  exact ⟨a, y, b, h1, h5⟩

/-- C3 (amended): in `SPI-tdk.c` with `useSS = 0`, for sample times that
strictly increase, every byte row appended lies in a frame: the most recent
frame event before it is a `"START"` whose time tag is not after that of the
byte row (it is equal for the first byte of a frame, whose first bit is captured
by the call that appends the `"START"`), and every `"STOP"` appended after the
byte row, the next one included, has a strictly later time tag. -/
theorem C3_bytes_bracketed (junk : SPItdk.decoder) (samples : List Sample)
    (hinc : List.Chain' (· < ·) (samples.map Sample.time))
    (pre : List Emit) (r : DataRow) (post : List Emit)
    (htr : (SPItdk.decode 0 junk samples).2 = pre ++ Emit.data r :: post)
    (hy : r.isByte) :
    (∃ e, lastFrame pre = some e ∧ e.text = "START" ∧ e.time ≤ r.time) ∧
    (∀ e ∈ eventStream post, e.text = "STOP" → r.time < e.time) := by
  cases samples with
  | nil =>
    simp [SPItdk.decode, SPItdk.run] at htr
  | cons s rest =>
    have h0 : SPItdk.BracketInv (s.time - 1) (SPItdk.newDecoder junk) [] := by
      refine ⟨⟨⟨by simp, by simp, by simp⟩, by simp [SPItdk.newDecoder]⟩,
        by simp [SPItdk.newDecoder], by simp [SPItdk.newDecoder], ?_⟩
      intro pre r post h
      simp at h
    have hc2 : List.Chain (· < ·) (s.time - 1) ((s :: rest).map Sample.time) := by
      simp only [List.map_cons, List.chain_cons]
      exact ⟨by omega, hinc⟩
    obtain ⟨T2, h2⟩ := SPItdk.run_bracketInv 0 (s :: rest) (s.time - 1) _ [] h0 hc2
    simp only [List.nil_append] at h2
    exact h2.2.2.2 pre r post htr hy

/-- C3 (amended), at the input of the spec's first scenario followed by the
stop: the byte row is tagged 1, the `"START"` 1 and the `"STOP"` 17. -/
theorem C3_bytes_bracketed_witness :
    (∃ e, lastFrame [Emit.event ⟨1, "START", some .lime⟩] = some e ∧ e.text = "START" ∧
      e.time ≤ (1 : Int)) ∧
    (∀ e ∈ eventStream [Emit.data ⟨17, 0, 0, some .scarlet, some .scarlet⟩,
        Emit.event ⟨17, "STOP", some .scarlet⟩], e.text = "STOP" → (1 : Int) < e.time) :=
  C3_bytes_bracketed ⟨.INVALID, 9, 9, 9, 9, 9, 9, 9, 9, 9⟩
    [⟨1, 1, 1, 0, 0⟩, ⟨2, 0, 0, 0, 0⟩, ⟨3, 1, 0, 1, 0⟩, ⟨4, 0, 0, 0, 0⟩,
     ⟨5, 1, 1, 0, 0⟩, ⟨6, 0, 0, 0, 0⟩, ⟨7, 1, 0, 1, 0⟩, ⟨8, 0, 0, 0, 0⟩,
     ⟨9, 1, 1, 0, 0⟩, ⟨10, 0, 0, 0, 0⟩, ⟨11, 1, 0, 1, 0⟩, ⟨12, 0, 0, 0, 0⟩,
     ⟨13, 1, 1, 0, 0⟩, ⟨14, 0, 0, 0, 0⟩, ⟨15, 1, 0, 1, 0⟩, ⟨16, 0, 0, 0, 0⟩,
     ⟨17, 0, 0, 0, 0⟩]
    (by simp) [Emit.event ⟨1, "START", some .lime⟩]
    ⟨1, 170, 85, some .yellow, some .lavender⟩
    [Emit.data ⟨17, 0, 0, some .scarlet, some .scarlet⟩, Emit.event ⟨17, "STOP", some .scarlet⟩]
    (by decide) (by decide)

/-- C3, as stated, fails: on the spec's first scenario (strictly increasing
sample times) the byte row is tagged with the time of its enclosing `"START"`,
not with a strictly greater one. -/
theorem C3_counterexample :
    List.Chain' (· < ·) (([⟨1, 1, 1, 0, 0⟩, ⟨2, 0, 0, 0, 0⟩, ⟨3, 1, 0, 1, 0⟩, ⟨4, 0, 0, 0, 0⟩,
      ⟨5, 1, 1, 0, 0⟩, ⟨6, 0, 0, 0, 0⟩, ⟨7, 1, 0, 1, 0⟩, ⟨8, 0, 0, 0, 0⟩,
      ⟨9, 1, 1, 0, 0⟩, ⟨10, 0, 0, 0, 0⟩, ⟨11, 1, 0, 1, 0⟩, ⟨12, 0, 0, 0, 0⟩,
      ⟨13, 1, 1, 0, 0⟩, ⟨14, 0, 0, 0, 0⟩, ⟨15, 1, 0, 1, 0⟩, ⟨16, 0, 0, 0, 0⟩,
      ⟨17, 0, 0, 0, 0⟩] : List Sample).map Sample.time) ∧
    ∃ pre r post e,
      (SPItdk.decode 0 ⟨.INVALID, 9, 9, 9, 9, 9, 9, 9, 9, 9⟩
        [⟨1, 1, 1, 0, 0⟩, ⟨2, 0, 0, 0, 0⟩, ⟨3, 1, 0, 1, 0⟩, ⟨4, 0, 0, 0, 0⟩,
         ⟨5, 1, 1, 0, 0⟩, ⟨6, 0, 0, 0, 0⟩, ⟨7, 1, 0, 1, 0⟩, ⟨8, 0, 0, 0, 0⟩,
         ⟨9, 1, 1, 0, 0⟩, ⟨10, 0, 0, 0, 0⟩, ⟨11, 1, 0, 1, 0⟩, ⟨12, 0, 0, 0, 0⟩,
         ⟨13, 1, 1, 0, 0⟩, ⟨14, 0, 0, 0, 0⟩, ⟨15, 1, 0, 1, 0⟩, ⟨16, 0, 0, 0, 0⟩,
         ⟨17, 0, 0, 0, 0⟩]).2 = pre ++ Emit.data r :: post ∧
      r.isByte ∧ lastFrame pre = some e ∧ e.text = "START" ∧ ¬ e.time < r.time :=
  ⟨by simp, [Emit.event ⟨1, "START", some .lime⟩], ⟨1, 170, 85, some .yellow, some .lavender⟩,
    [Emit.data ⟨17, 0, 0, some .scarlet, some .scarlet⟩, Emit.event ⟨17, "STOP", some .scarlet⟩],
    ⟨1, "START", some .lime⟩, by decide, by decide, by decide, by decide, by decide⟩

/-- C4 (amended): inserting directly after a sample a duplicate with the same
four levels, whatever its time tag, leaves the whole decode (the rows appended
and the final state) unchanged: in `SPI-tdk.c`, for every `useSS`, when the
sample's SCK level (0 or 1) equals that of the sample before it, or when it is
the first sample and its SCK is 0; in `SPI-tdk.c` with `useSS = 0` the rows
appended are also unchanged when the sample's SCK is 1; in `SPI-tdk_SS.c` the
whole decode is unchanged when the sample has SS 1 or its SCK is not 1. -/
theorem C4_duplicate_ignored :
    (∀ (useSS : Int) (junk : SPItdk.decoder) (pre : List Sample) (p s : Sample) (t : Int)
      (post : List Sample), p.sck = s.sck → s.sck ≤ 1 →
        SPItdk.decode useSS junk (pre ++ p :: s :: s.dup t :: post) =
          SPItdk.decode useSS junk (pre ++ p :: s :: post)) ∧
    (∀ (useSS : Int) (junk : SPItdk.decoder) (s : Sample) (t : Int) (post : List Sample),
      s.sck = 0 →
        SPItdk.decode useSS junk (s :: s.dup t :: post) = SPItdk.decode useSS junk (s :: post)) ∧
    (∀ (junk : SPItdk.decoder) (pre : List Sample) (s : Sample) (t : Int) (post : List Sample),
      s.sck = 1 →
        (SPItdk.decode 0 junk (pre ++ s :: s.dup t :: post)).2 =
          (SPItdk.decode 0 junk (pre ++ s :: post)).2) ∧
    (∀ (junk : SPItdkSS.decoder) (pre : List Sample) (s : Sample) (t : Int)
      (post : List Sample), s.ss = 1 ∨ s.sck ≠ 1 →
        SPItdkSS.decode junk (pre ++ s :: s.dup t :: post) =
          SPItdkSS.decode junk (pre ++ s :: post)) := by
  refine ⟨?_, ?_, ?_, ?_⟩
  · intro useSS junk pre p s t post hp hs
    simp only [SPItdk.decode]
    rw [SPItdk.run_append, SPItdk.run_append useSS _ pre (p :: s :: post),
      SPItdk.run_dup_repeat useSS _ p s t post hp hs]
  · intro useSS junk s t post hs
    exact SPItdk.run_dup_first useSS junk s t post hs
  · intro junk pre s t post hs
    simp only [SPItdk.decode]
    rw [SPItdk.run_append, SPItdk.run_append 0 _ pre (s :: post),
      SPItdk.run_dup_high _ s t post hs]
  · intro junk pre s t post h
    simp only [SPItdkSS.decode]
    rw [SPItdkSS.run_append_ss, SPItdkSS.run_append_ss _ pre (s :: post),
      SPItdkSS.run_dup _ s t post h]

/-- C4 (amended), at concrete inputs: a third clock-low sample in `SPI-tdk.c`,
a leading clock-low sample, a clock-high sample with `useSS = 0`, and a
clock-low sample under select in `SPI-tdk_SS.c`. -/
theorem C4_duplicate_ignored_witness :
    (SPItdk.decode 0 ⟨.INVALID, 9, 9, 9, 9, 9, 9, 9, 9, 9⟩
        ([⟨1, 1, 1, 0, 0⟩] ++ ⟨2, 0, 0, 0, 0⟩ :: ⟨3, 0, 0, 0, 0⟩ ::
          (⟨3, 0, 0, 0, 0⟩ : Sample).dup 4 :: [⟨5, 1, 1, 0, 0⟩]) =
      SPItdk.decode 0 ⟨.INVALID, 9, 9, 9, 9, 9, 9, 9, 9, 9⟩
        ([⟨1, 1, 1, 0, 0⟩] ++ ⟨2, 0, 0, 0, 0⟩ :: ⟨3, 0, 0, 0, 0⟩ :: [⟨5, 1, 1, 0, 0⟩])) ∧
    (SPItdk.decode 1 ⟨.INVALID, 9, 9, 9, 9, 9, 9, 9, 9, 9⟩
        (⟨1, 0, 0, 0, 0⟩ :: (⟨1, 0, 0, 0, 0⟩ : Sample).dup 2 :: [⟨3, 1, 1, 0, 0⟩]) =
      SPItdk.decode 1 ⟨.INVALID, 9, 9, 9, 9, 9, 9, 9, 9, 9⟩
        (⟨1, 0, 0, 0, 0⟩ :: [⟨3, 1, 1, 0, 0⟩])) ∧
    ((SPItdk.decode 0 ⟨.INVALID, 9, 9, 9, 9, 9, 9, 9, 9, 9⟩
        ([⟨1, 0, 0, 0, 0⟩] ++ ⟨2, 1, 1, 0, 0⟩ :: (⟨2, 1, 1, 0, 0⟩ : Sample).dup 3 ::
          [⟨4, 0, 0, 0, 0⟩])).2 =
      (SPItdk.decode 0 ⟨.INVALID, 9, 9, 9, 9, 9, 9, 9, 9, 9⟩
        ([⟨1, 0, 0, 0, 0⟩] ++ ⟨2, 1, 1, 0, 0⟩ :: [⟨4, 0, 0, 0, 0⟩])).2) ∧
    (SPItdkSS.decode ⟨.INVALID, 9, 9, 9, 9, 9, 9, 9⟩
        ([⟨1, 0, 0, 0, 0⟩] ++ ⟨2, 0, 1, 0, 0⟩ :: (⟨2, 0, 1, 0, 0⟩ : Sample).dup 3 ::
          [⟨4, 1, 1, 0, 0⟩]) =
      SPItdkSS.decode ⟨.INVALID, 9, 9, 9, 9, 9, 9, 9⟩
        ([⟨1, 0, 0, 0, 0⟩] ++ ⟨2, 0, 1, 0, 0⟩ :: [⟨4, 1, 1, 0, 0⟩])) :=
  ⟨C4_duplicate_ignored.1 0 _ _ _ _ 4 _ (by decide) (by decide),
   C4_duplicate_ignored.2.1 1 _ _ 2 _ (by decide),
   C4_duplicate_ignored.2.2.1 _ _ _ 3 _ (by decide),
   C4_duplicate_ignored.2.2.2 _ _ _ 3 _ (by decide)⟩

/-- C4, as stated, fails for each decoder: a duplicate, with a later time tag
not after the following sample, of (a) the clock-low sample after a clock-high
one in `SPI-tdk.c` with `useSS = 0` makes a `"STOP"` appear; (b) the same with
`useSS = 1` makes the `"STOP"` of the following select release disappear; (c)
the seventh clock-high sample under select in `SPI-tdk_SS.c` makes a byte
appear. -/
theorem C4_counterexample :
    (SPItdk.decode 0 ⟨.INVALID, 9, 9, 9, 9, 9, 9, 9, 9, 9⟩
        ([⟨1, 1, 1, 0, 0⟩] ++ ⟨2, 0, 0, 0, 0⟩ :: (⟨2, 0, 0, 0, 0⟩ : Sample).dup 3 ::
          [⟨4, 1, 1, 0, 0⟩])).2 ≠
      (SPItdk.decode 0 ⟨.INVALID, 9, 9, 9, 9, 9, 9, 9, 9, 9⟩
        ([⟨1, 1, 1, 0, 0⟩] ++ ⟨2, 0, 0, 0, 0⟩ :: [⟨4, 1, 1, 0, 0⟩])).2 ∧
    (SPItdk.decode 1 ⟨.INVALID, 9, 9, 9, 9, 9, 9, 9, 9, 9⟩
        ([⟨1, 1, 1, 0, 0⟩] ++ ⟨2, 0, 0, 0, 0⟩ :: (⟨2, 0, 0, 0, 0⟩ : Sample).dup 3 ::
          [⟨4, 0, 0, 0, 1⟩])).2 ≠
      (SPItdk.decode 1 ⟨.INVALID, 9, 9, 9, 9, 9, 9, 9, 9, 9⟩
        ([⟨1, 1, 1, 0, 0⟩] ++ ⟨2, 0, 0, 0, 0⟩ :: [⟨4, 0, 0, 0, 1⟩])).2 ∧
    (SPItdkSS.decode ⟨.INVALID, 9, 9, 9, 9, 9, 9, 9⟩
        ([⟨0, 0, 0, 0, 0⟩, ⟨1, 1, 1, 0, 0⟩, ⟨2, 1, 1, 0, 0⟩, ⟨3, 1, 1, 0, 0⟩, ⟨4, 1, 1, 0, 0⟩,
          ⟨5, 1, 1, 0, 0⟩, ⟨6, 1, 1, 0, 0⟩] ++ ⟨7, 1, 1, 0, 0⟩ ::
          (⟨7, 1, 1, 0, 0⟩ : Sample).dup 8 :: [⟨9, 0, 0, 0, 1⟩])).2 ≠
      (SPItdkSS.decode ⟨.INVALID, 9, 9, 9, 9, 9, 9, 9⟩
        ([⟨0, 0, 0, 0, 0⟩, ⟨1, 1, 1, 0, 0⟩, ⟨2, 1, 1, 0, 0⟩, ⟨3, 1, 1, 0, 0⟩, ⟨4, 1, 1, 0, 0⟩,
          ⟨5, 1, 1, 0, 0⟩, ⟨6, 1, 1, 0, 0⟩] ++ ⟨7, 1, 1, 0, 0⟩ :: [⟨9, 0, 0, 0, 1⟩])).2 := by
  refine ⟨?_, ?_, ?_⟩ <;> decide

/-- C5: in `SPI-tdk_SS.c`, from the initial state, a sample with SS 0 at time
`s0.time` followed by eight samples with SS 0, SCK 1 and MOSI levels in {0,1}
appends `"START"` at `s0.time` and then exactly one data row, whose MOSI value
is `b7*128 + ... + b0*1` and whose time tag is that of the eighth of those
samples, and leaves the phase `IDLE`.  (The completing call also appends a
`"DATA"` row to the event stream.) -/
theorem C5_select_single_byte (junk : SPItdkSS.decoder) (s0 b7 b6 b5 b4 b3 b2 b1 b0 : Sample)
    (h0 : s0.ss = 0)
    (h : ∀ s ∈ [b7, b6, b5, b4, b3, b2, b1, b0], s.ss = 0 ∧ s.sck = 1 ∧ s.mosi ≤ 1) :
    (SPItdkSS.decode junk [s0, b7, b6, b5, b4, b3, b2, b1, b0]).2 =
      [.event ⟨s0.time, "START", none⟩,
       .data ⟨b0.time,
         b7.mosi * 128 + b6.mosi * 64 + b5.mosi * 32 + b4.mosi * 16 + b3.mosi * 8 +
           b2.mosi * 4 + b1.mosi * 2 + b0.mosi * 1,
         assemble [b7.miso, b6.miso, b5.miso, b4.miso, b3.miso, b2.miso, b1.miso, b0.miso],
         none, none⟩,
       .event ⟨b0.time, "DATA", none⟩] ∧
    (SPItdkSS.decode junk [s0, b7, b6, b5, b4, b3, b2, b1, b0]).1.state = .IDLE := by
  simp only [List.mem_cons, List.mem_singleton, forall_eq_or_imp, forall_eq, List.not_mem_nil,
    false_implies, implies_true, and_true] at h
  obtain ⟨⟨a7, c7, m7⟩, ⟨a6, c6, m6⟩, ⟨a5, c5, m5⟩, ⟨a4, c4, m4⟩, ⟨a3, c3, m3⟩, ⟨a2, c2, m2⟩,
    ⟨a1, c1, m1⟩, ⟨a0, c0, m0⟩⟩ := h
  rw [← assemble_eight _ _ _ _ _ _ _ _ m7 m6 m5 m4 m3 m2 m1 m0]
  simp [SPItdkSS.decode, SPItdkSS.run, SPItdkSS.handleState_first junk s0 h0,
    SPItdkSS.handleState_capture, SPItdkSS.handleState_complete,
    a7, a6, a5, a4, a3, a2, a1, a0, c7, c6, c5, c4, c3, c2, c1, c0, assemble]

/-- C5, at the input of the spec's second scenario: eight samples with MOSI 1
give the byte 0xFF at the time of the eighth. -/
theorem C5_select_single_byte_witness :
    (SPItdkSS.decode ⟨.INVALID, 9, 9, 9, 9, 9, 9, 9⟩
      [⟨0, 0, 0, 0, 0⟩, ⟨1, 1, 1, 0, 0⟩, ⟨2, 1, 1, 0, 0⟩, ⟨3, 1, 1, 0, 0⟩, ⟨4, 1, 1, 0, 0⟩,
       ⟨5, 1, 1, 0, 0⟩, ⟨6, 1, 1, 0, 0⟩, ⟨7, 1, 1, 0, 0⟩, ⟨8, 1, 1, 0, 0⟩]).2 =
      [.event ⟨0, "START", none⟩, .data ⟨8, 255, 0, none, none⟩, .event ⟨8, "DATA", none⟩] ∧
    (SPItdkSS.decode ⟨.INVALID, 9, 9, 9, 9, 9, 9, 9⟩
      [⟨0, 0, 0, 0, 0⟩, ⟨1, 1, 1, 0, 0⟩, ⟨2, 1, 1, 0, 0⟩, ⟨3, 1, 1, 0, 0⟩, ⟨4, 1, 1, 0, 0⟩,
       ⟨5, 1, 1, 0, 0⟩, ⟨6, 1, 1, 0, 0⟩, ⟨7, 1, 1, 0, 0⟩, ⟨8, 1, 1, 0, 0⟩]).1.state = .IDLE :=
  C5_select_single_byte _ _ _ _ _ _ _ _ _ _ (by decide) (by decide)

/-- C6: in `SPI-tdk_SS.c`, any stretch of consecutive appended rows that
contains no `"START"` event contains at most one data row (so at most one byte
pair lies between two consecutive STARTs, and after the last one); and from the
call that captures the eighth bit with select asserted, however many samples
with select still asserted follow, whatever their clock and data levels, the
rows appended are those of the completing call alone. -/
theorem C6_one_byte_per_assertion :
    (∀ (junk : SPItdkSS.decoder) (samples : List Sample) (b : List Emit),
      b <:+: (SPItdkSS.decode junk samples).2 → (∀ e ∈ eventStream b, e.text ≠ "START") →
        (dataStream b).length ≤ 1) ∧
    (∀ (d : SPItdkSS.decoder) (s : Sample) (rest : List Sample),
      d.state = .READ_DATA → d.ss = 0 → d.pos = 7 → s.ss = 0 → s.sck = 1 →
      (∀ x ∈ rest, x.ss = 0) →
        (SPItdkSS.run d (s :: rest)).2 =
          [.data ⟨s.time, orBit d.byte_mosi s.mosi 7, orBit d.byte_miso s.miso 7, none, none⟩,
           .event ⟨s.time, "DATA", none⟩]) := by
  constructor
  · intro junk samples b hb hf
    exact frameCheck_infix _ false (SPItdkSS.decode_frameInv junk samples).2.1 b hb hf
  · intro d s rest hst hss hp hs hk hall
    have hstep := SPItdkSS.handleState_complete d s hss hst hs hk hp
    have hrest := SPItdkSS.run_idle_asserted rest (SPItdkSS.handleState d s).1
      (by rw [hstep]) (by rw [hstep]) hall
    rw [SPItdkSS.run, hrest, hstep]
    rfl

/-- C6, at concrete inputs: a select assertion that lasts ten clock-high
samples yields one data row; a capture at bit index 7 followed by two more
clock-high samples appends the rows of the completing call only. -/
theorem C6_one_byte_per_assertion_witness :
    (dataStream [.data ⟨8, 255, 0, none, none⟩, .event ⟨8, "DATA", none⟩]).length ≤ 1 ∧
    (SPItdkSS.run ⟨.READ_DATA, 1, 1, 0, 0, 7, 254, 0⟩
      [⟨8, 1, 1, 0, 0⟩, ⟨9, 1, 1, 0, 0⟩, ⟨10, 1, 1, 0, 0⟩]).2 =
      [.data ⟨8, orBit 254 1 7, orBit 0 0 7, none, none⟩, .event ⟨8, "DATA", none⟩] :=
  ⟨C6_one_byte_per_assertion.1 ⟨.INVALID, 9, 9, 9, 9, 9, 9, 9⟩
      [⟨0, 0, 0, 0, 0⟩, ⟨1, 1, 1, 0, 0⟩, ⟨2, 1, 1, 0, 0⟩, ⟨3, 1, 1, 0, 0⟩, ⟨4, 1, 1, 0, 0⟩,
       ⟨5, 1, 1, 0, 0⟩, ⟨6, 1, 1, 0, 0⟩, ⟨7, 1, 1, 0, 0⟩, ⟨8, 1, 1, 0, 0⟩, ⟨9, 1, 1, 0, 0⟩,
       ⟨10, 1, 1, 0, 0⟩] _ ⟨[.event ⟨0, "START", none⟩], [], by decide⟩ (by decide),
   C6_one_byte_per_assertion.2 _ _ _ (by decide) (by decide) (by decide) (by decide)
     (by decide) (by decide)⟩

/-- C7: when the sample times are non-decreasing, the time tags of the rows
appended to the data stream are non-decreasing in append order, and so are
those of the rows appended to the event stream; for `SPI-tdk.c` (any `useSS`)
and for `SPI-tdk_SS.c`. -/
theorem C7_streams_time_ordered :
    (∀ (useSS : Int) (junk : SPItdk.decoder) (samples : List Sample),
      List.Chain' (· ≤ ·) (samples.map Sample.time) →
        ((dataStream (SPItdk.decode useSS junk samples).2).map DataRow.time).Pairwise (· ≤ ·) ∧
        ((eventStream (SPItdk.decode useSS junk samples).2).map EventRow.time).Pairwise
          (· ≤ ·)) ∧
    (∀ (junk : SPItdkSS.decoder) (samples : List Sample),
      List.Chain' (· ≤ ·) (samples.map Sample.time) →
        ((dataStream (SPItdkSS.decode junk samples).2).map DataRow.time).Pairwise (· ≤ ·) ∧
        ((eventStream (SPItdkSS.decode junk samples).2).map EventRow.time).Pairwise
          (· ≤ ·)) := by
  constructor
  · intro useSS junk samples hc
    cases samples with
    | nil => simp [SPItdk.decode, SPItdk.run]
    | cons s rest =>
      have h0 : SPItdk.TimeInv s.time (SPItdk.newDecoder junk) [] := by
        simp [SPItdk.TimeInv, StreamsOrdered, SPItdk.newDecoder]
      have hc2 : List.Chain (· ≤ ·) s.time ((s :: rest).map Sample.time) := by
        simp only [List.map_cons, List.chain_cons]
        exact ⟨le_refl _, hc⟩
      obtain ⟨T2, h2⟩ := SPItdk.run_timeInv useSS (s :: rest) s.time _ [] h0 hc2
      simp only [List.nil_append] at h2
      exact ⟨h2.1.2.1, h2.1.2.2⟩
  · intro junk samples hc
    cases samples with
    | nil => simp [SPItdkSS.decode, SPItdkSS.run]
    | cons s rest =>
      have h0 : StreamsOrdered s.time [] := by simp [StreamsOrdered]
      have hc2 : List.Chain (· ≤ ·) s.time ((s :: rest).map Sample.time) := by
        simp only [List.map_cons, List.chain_cons]
        exact ⟨le_refl _, hc⟩
      obtain ⟨T2, h2⟩ := SPItdkSS.run_ordered (s :: rest) s.time (SPItdkSS.newDecoder junk) [] h0 hc2
      simp only [List.nil_append] at h2
      exact ⟨h2.2.1, h2.2.2⟩

/-- C7, at concrete inputs: a start, a stop and a restart in `SPI-tdk.c`; a
start and a stop in `SPI-tdk_SS.c`. -/
theorem C7_streams_time_ordered_witness :
    ((dataStream (SPItdk.decode 0 ⟨.INVALID, 9, 9, 9, 9, 9, 9, 9, 9, 9⟩
        [⟨1, 1, 1, 0, 0⟩, ⟨2, 0, 0, 0, 0⟩, ⟨2, 0, 0, 0, 0⟩, ⟨5, 1, 1, 0, 0⟩]).2).map
          DataRow.time).Pairwise (· ≤ ·) ∧
    ((eventStream (SPItdkSS.decode ⟨.INVALID, 9, 9, 9, 9, 9, 9, 9⟩
        [⟨1, 0, 1, 0, 0⟩, ⟨1, 1, 1, 0, 1⟩]).2).map EventRow.time).Pairwise (· ≤ ·) :=
  ⟨(C7_streams_time_ordered.1 0 _ _ (by simp)).1,
   (C7_streams_time_ordered.2 _ _ (by simp)).2⟩

/-- C8: in both decoders the bit index is below 8 in every reachable state whose
phase is `READ_DATA`, and also at the point of `handleState` where it is read
(so the shift amount `7 - pos` is one of 0..7); a call that captures a bit at
index 7 appends the byte row and leaves the bit index and both accumulators at
zero in that same call. -/
theorem C8_bit_index_in_range :
    (∀ (useSS : Int) (junk : SPItdk.decoder) (samples : List Sample),
      (SPItdk.decode useSS junk samples).1.state = .READ_DATA →
        (SPItdk.decode useSS junk samples).1.pos < 8) ∧
    (∀ (useSS : Int) (junk : SPItdk.decoder) (samples : List Sample) (s : Sample),
      (SPItdk.framing (SPItdk.decode useSS junk samples).1 s useSS).1.state = .READ_DATA →
        (SPItdk.framing (SPItdk.decode useSS junk samples).1 s useSS).1.pos < 8) ∧
    (∀ (useSS : Int) (d : SPItdk.decoder) (s : Sample),
      ¬ SPItdk.isFiltered d s →
      (SPItdk.framing d s useSS).1.state = .READ_DATA → s.sck = 1 → d.sck ≠ 1 →
      (SPItdk.framing d s useSS).1.pos = 7 →
        (SPItdk.handleState d s useSS).2 = (SPItdk.framing d s useSS).2 ++
          [.data ⟨(SPItdk.framing d s useSS).1.time,
            orBit (SPItdk.framing d s useSS).1.byte_mosi s.mosi 7,
            orBit (SPItdk.framing d s useSS).1.byte_miso s.miso 7,
            some .yellow, some .lavender⟩] ∧
        (SPItdk.handleState d s useSS).1.pos = 0 ∧
        (SPItdk.handleState d s useSS).1.byte_mosi = 0 ∧
        (SPItdk.handleState d s useSS).1.byte_miso = 0) ∧
    (∀ (junk : SPItdkSS.decoder) (samples : List Sample),
      (SPItdkSS.decode junk samples).1.state = .READ_DATA →
        (SPItdkSS.decode junk samples).1.pos < 8) ∧
    (∀ (d : SPItdkSS.decoder) (s : Sample),
      ¬ (d.ss = s.ss ∧ s.ss = 1) → ¬ (d.ss = 1 ∧ s.ss = 0) → ¬ (d.ss = 0 ∧ s.ss = 1) →
      d.state = .READ_DATA → s.sck = 1 → d.pos = 7 →
        (SPItdkSS.handleState d s).2 =
          [.data ⟨s.time, orBit d.byte_mosi s.mosi 7, orBit d.byte_miso s.miso 7, none, none⟩,
           .event ⟨s.time, "DATA", none⟩] ∧
        (SPItdkSS.handleState d s).1.pos = 0 ∧
        (SPItdkSS.handleState d s).1.byte_mosi = 0 ∧
        (SPItdkSS.handleState d s).1.byte_miso = 0) := by
  refine ⟨SPItdk.decode_pos_lt, ?_, ?_, SPItdkSS.decode_pos_lt_ss, ?_⟩
  · intro useSS junk samples s
    exact SPItdk.framing_pos_lt _ s useSS (SPItdk.decode_pos_lt useSS junk samples)
  · intro useSS d s hf h1 h2 h3 h4
    have hf2 : ¬ (d.sckPrev = s.sck ∧ d.sck = s.sck) := hf
    have hs := (SPItdk.framing_levels d s useSS).1
    unfold SPItdk.handleState
    rw [if_neg hf2]
    simp [SPItdk.update, SPItdk.readBit, h1, h2, h3, h4, hs]
  · intro d s h0 h1 h2 h3 h4 h5
    rw [SPItdkSS.handleState_eq_ss]
    simp [h0, h1, h2, h3, h4, h5]

/-- C8, at concrete inputs: after one rising edge the clock-framed decoder is
reading at bit index 1, and a capture at index 7 completes the byte. -/
theorem C8_bit_index_in_range_witness :
    (SPItdk.decode 0 ⟨.INVALID, 9, 9, 9, 9, 9, 9, 9, 9, 9⟩ [⟨1, 1, 1, 0, 0⟩]).1.pos < 8 ∧
    (SPItdk.framing (SPItdk.decode 0 ⟨.INVALID, 9, 9, 9, 9, 9, 9, 9, 9, 9⟩ [⟨1, 1, 1, 0, 0⟩]).1
        ⟨3, 1, 1, 0, 0⟩ 0).1.pos < 8 ∧
    (SPItdk.handleState ⟨.READ_DATA, 0, 1, 0, 0, 0, 7, 254, 0, 5⟩ ⟨9, 1, 1, 0, 0⟩ 0).1.pos = 0 ∧
    (SPItdkSS.decode ⟨.INVALID, 9, 9, 9, 9, 9, 9, 9⟩ [⟨1, 0, 1, 0, 0⟩]).1.pos < 8 ∧
    (SPItdkSS.handleState ⟨.READ_DATA, 1, 1, 0, 0, 7, 254, 0⟩ ⟨9, 1, 1, 0, 0⟩).1.pos = 0 :=
  ⟨C8_bit_index_in_range.1 0 _ _ (by decide),
   C8_bit_index_in_range.2.1 0 _ _ _ (by decide),
   (C8_bit_index_in_range.2.2.1 0 _ _ (by decide) (by decide) (by decide) (by decide)
      (by decide)).2.1,
   C8_bit_index_in_range.2.2.2.1 _ _ (by decide),
   (C8_bit_index_in_range.2.2.2.2 _ _ (by decide) (by decide) (by decide) (by decide)
      (by decide) (by decide)).2.1⟩

/-- C9: in every state either decoder reaches from its initial state with phase
`READ_DATA`, a `"START"` event has been appended to the event stream and the
most recent `"START"` or `"STOP"` event is a `"START"`. -/
theorem C9_reading_implies_start :
    (∀ (useSS : Int) (junk : SPItdk.decoder) (samples : List Sample),
      (SPItdk.decode useSS junk samples).1.state = .READ_DATA →
        (∃ e ∈ eventStream (SPItdk.decode useSS junk samples).2, e.text = "START") ∧
        ∃ e, lastFrame (SPItdk.decode useSS junk samples).2 = some e ∧ e.text = "START") ∧
    (∀ (junk : SPItdkSS.decoder) (samples : List Sample),
      (SPItdkSS.decode junk samples).1.state = .READ_DATA →
        (∃ e ∈ eventStream (SPItdkSS.decode junk samples).2, e.text = "START") ∧
        ∃ e, lastFrame (SPItdkSS.decode junk samples).2 = some e ∧ e.text = "START") := by
  constructor
  · intro useSS junk samples h
    obtain ⟨e, he, ht⟩ := (SPItdk.decode_startInv useSS junk samples).2 h
    exact ⟨⟨e, (lastFrame_mem he).1, ht⟩, e, he, ht⟩
  · intro junk samples h
    obtain ⟨e, he, ht⟩ := (SPItdkSS.decode_startInv_ss junk samples).2 h
    exact ⟨⟨e, (lastFrame_mem he).1, ht⟩, e, he, ht⟩

/-- C9, at concrete inputs: one rising clock edge (clock framing), one falling
select edge (select framing, both files). -/
theorem C9_reading_implies_start_witness :
    (∃ e, lastFrame (SPItdk.decode 0 ⟨.INVALID, 9, 9, 9, 9, 9, 9, 9, 9, 9⟩
        [⟨1, 1, 1, 0, 0⟩]).2 = some e ∧ e.text = "START") ∧
    (∃ e, lastFrame (SPItdk.decode 1 ⟨.INVALID, 9, 9, 9, 9, 9, 9, 9, 9, 9⟩
        [⟨1, 1, 1, 0, 0⟩]).2 = some e ∧ e.text = "START") ∧
    (∃ e, lastFrame (SPItdkSS.decode ⟨.INVALID, 9, 9, 9, 9, 9, 9, 9⟩
        [⟨1, 0, 1, 0, 0⟩]).2 = some e ∧ e.text = "START") :=
  ⟨(C9_reading_implies_start.1 0 _ _ (by decide)).2,
   (C9_reading_implies_start.1 1 _ _ (by decide)).2,
   (C9_reading_implies_start.2 _ _ (by decide)).2⟩

/-- C10: when the new sample's SCK equals both stored SCK levels, `handleState`
of `SPI-tdk.c` appends nothing and returns the decoder state unchanged, whatever
`useSS` and the sample's SS are. -/
theorem C10_no_change_filter (d : SPItdk.decoder) (s : Sample) (useSS : Int)
    (h1 : d.sckPrev = s.sck) (h2 : d.sck = s.sck) :
    SPItdk.handleState d s useSS = (d, []) := by
  unfold SPItdk.handleState
  rw [if_pos ⟨h1, h2⟩]

/-- C10, at a concrete input: stored SS is 0, the sample has SS 1 and an
unchanged idle clock; the stored SS stays 0 and nothing is appended. -/
theorem C10_no_change_filter_witness :
    SPItdk.handleState ⟨.READ_DATA, 0, 0, 0, 0, 0, 3, 160, 0, 5⟩ ⟨9, 0, 1, 1, 1⟩ 1 =
      (⟨.READ_DATA, 0, 0, 0, 0, 0, 3, 160, 0, 5⟩, []) :=
  C10_no_change_filter _ _ 1 (by decide) (by decide)

/-- C11 (amended): in `SPI-tdk.c` with `useSS = 0`, for every state with
`sckPrev = 1`, `sck = 0` and every sample with SCK 0, the call appends exactly
one event, `"STOP"` at the sample's time (no `"START"`), appends no byte row
(the only data row is the zero row written with the stop), and leaves the state
`IDLE`; both byte accumulators keep the values they had. -/
theorem C11_clock_stop (d : SPItdk.decoder) (s : Sample) (hp : d.sckPrev = 1) (hd : d.sck = 0)
    (hs : s.sck = 0) :
    eventStream (SPItdk.handleState d s 0).2 = [⟨s.time, "STOP", some .scarlet⟩] ∧
    (∀ r ∈ dataStream (SPItdk.handleState d s 0).2, ¬ r.isByte) ∧
    dataStream (SPItdk.handleState d s 0).2 = [⟨s.time, 0, 0, some .scarlet, some .scarlet⟩] ∧
    (SPItdk.handleState d s 0).1.state = .IDLE ∧
    (SPItdk.handleState d s 0).1.byte_mosi = d.byte_mosi ∧
    (SPItdk.handleState d s 0).1.byte_miso = d.byte_miso := by
  rw [SPItdk.handleState_clock_stop d s hp hd hs]
  simp [SPItdk.stopRows, DataRow.isByte]

/-- C11 (amended), at a concrete input: a stop after one captured bit. -/
theorem C11_clock_stop_witness :
    eventStream (SPItdk.handleState ⟨.READ_DATA, 0, 1, 0, 0, 0, 1, 128, 0, 1⟩
        ⟨3, 0, 0, 0, 0⟩ 0).2 = [⟨3, "STOP", some .scarlet⟩] ∧
    (SPItdk.handleState ⟨.READ_DATA, 0, 1, 0, 0, 0, 1, 128, 0, 1⟩
        ⟨3, 0, 0, 0, 0⟩ 0).1.byte_mosi = 128 :=
  ⟨(C11_clock_stop _ _ (by decide) (by decide) (by decide)).1,
   (C11_clock_stop _ _ (by decide) (by decide) (by decide)).2.2.2.2.1⟩

/-- C11, as stated, fails: after a start that captured a MOSI bit 1 and a
clock-low sample, the stored levels are high then low; the stop on the next
clock-low sample leaves `byte_mosi` at 128, not 0. -/
theorem C11_counterexample :
    (SPItdk.decode 0 ⟨.INVALID, 9, 9, 9, 9, 9, 9, 9, 9, 9⟩
      [⟨1, 1, 1, 0, 0⟩, ⟨2, 0, 0, 0, 0⟩]).1.sckPrev = 1 ∧
    (SPItdk.decode 0 ⟨.INVALID, 9, 9, 9, 9, 9, 9, 9, 9, 9⟩
      [⟨1, 1, 1, 0, 0⟩, ⟨2, 0, 0, 0, 0⟩]).1.sck = 0 ∧
    (SPItdk.handleState (SPItdk.decode 0 ⟨.INVALID, 9, 9, 9, 9, 9, 9, 9, 9, 9⟩
      [⟨1, 1, 1, 0, 0⟩, ⟨2, 0, 0, 0, 0⟩]).1 ⟨3, 0, 0, 0, 0⟩ 0).1.byte_mosi ≠ 0 := by
  decide

/-- C12: in `SPI-tdk_SS.c`, for every state with stored SS 0, whatever its
phase, and every sample with SS 1, the call appends exactly one row, the event
`"STOP"` at the sample's time (so no data row), and leaves the phase `IDLE` and
the stored SS 1. -/
theorem C12_select_stop (d : SPItdkSS.decoder) (s : Sample) (hd : d.ss = 0) (hs : s.ss = 1) :
    (SPItdkSS.handleState d s).2 = [.event ⟨s.time, "STOP", none⟩] ∧
    (SPItdkSS.handleState d s).1.state = .IDLE ∧ (SPItdkSS.handleState d s).1.ss = 1 := by
  rw [SPItdkSS.handleState_stop d s hd hs]
  exact ⟨rfl, rfl, rfl⟩

/-- C12, at concrete inputs: a select release while reading, and one after a
completed byte forced the phase to `IDLE`. -/
theorem C12_select_stop_witness :
    (SPItdkSS.handleState ⟨.READ_DATA, 1, 1, 0, 0, 3, 224, 0⟩ ⟨9, 0, 0, 0, 1⟩).2 =
      [.event ⟨9, "STOP", none⟩] ∧
    (SPItdkSS.handleState ⟨.IDLE, 1, 1, 0, 0, 0, 0, 0⟩ ⟨9, 1, 0, 0, 1⟩).2 =
      [.event ⟨9, "STOP", none⟩] :=
  ⟨(C12_select_stop _ _ (by decide) (by decide)).1,
   (C12_select_stop _ _ (by decide) (by decide)).1⟩

/-- C13 (amended): every row `SPI-tdk.c` appends to the event stream has text
`"START"` or `"STOP"`; every row `SPI-tdk_SS.c` appends to it has text
`"START"`, `"STOP"` or `"DATA"`. -/
theorem C13_event_texts :
    (∀ (useSS : Int) (junk : SPItdk.decoder) (samples : List Sample),
      ∀ e ∈ eventStream (SPItdk.decode useSS junk samples).2,
        e.text = "START" ∨ e.text = "STOP") ∧
    (∀ (junk : SPItdkSS.decoder) (samples : List Sample),
      ∀ e ∈ eventStream (SPItdkSS.decode junk samples).2,
        e.text = "START" ∨ e.text = "STOP" ∨ e.text = "DATA") :=
  ⟨SPItdk.decode_events, SPItdkSS.decode_events_ss⟩

/-- C13, as stated, fails for `SPI-tdk_SS.c`: on the spec's second scenario the
completing call appends a row with text `"DATA"` to the event stream. -/
theorem C13_counterexample :
    ∃ e ∈ eventStream (SPItdkSS.decode ⟨.INVALID, 9, 9, 9, 9, 9, 9, 9⟩
      [⟨0, 0, 0, 0, 0⟩, ⟨1, 1, 1, 0, 0⟩, ⟨2, 1, 1, 0, 0⟩, ⟨3, 1, 1, 0, 0⟩, ⟨4, 1, 1, 0, 0⟩,
       ⟨5, 1, 1, 0, 0⟩, ⟨6, 1, 1, 0, 0⟩, ⟨7, 1, 1, 0, 0⟩, ⟨8, 1, 1, 0, 0⟩]).2,
      ¬ (e.text = "START" ∨ e.text = "STOP") :=
  ⟨⟨8, "DATA", none⟩, by decide, by decide⟩

/-- C14: for both decoders the number of byte rows appended is at most
`k / 8`, where `k` is the number of samples with SCK 1, and a decode that ends
while reading at bit index `pos` has appended at most `(k - pos) / 8` of them
(no byte is written for the trailing `pos` bits); the empty sample sequence
appends nothing. -/
theorem C14_no_partial_flush :
    (∀ (useSS : Int) (junk : SPItdk.decoder) (samples : List Sample),
      byteCount (SPItdk.decode useSS junk samples).2 ≤ clockHighCount samples / 8 ∧
      ((SPItdk.decode useSS junk samples).1.state = .READ_DATA →
        8 * byteCount (SPItdk.decode useSS junk samples).2 +
          (SPItdk.decode useSS junk samples).1.pos ≤ clockHighCount samples)) ∧
    (∀ (junk : SPItdkSS.decoder) (samples : List Sample),
      (dataStream (SPItdkSS.decode junk samples).2).length ≤ clockHighCount samples / 8 ∧
      ((SPItdkSS.decode junk samples).1.state = .READ_DATA →
        8 * (dataStream (SPItdkSS.decode junk samples).2).length +
          (SPItdkSS.decode junk samples).1.pos ≤ clockHighCount samples)) ∧
    (∀ (useSS : Int) (junk : SPItdk.decoder), (SPItdk.decode useSS junk []).2 = []) ∧
    (∀ junk : SPItdkSS.decoder, (SPItdkSS.decode junk []).2 = []) := by
  refine ⟨?_, ?_, fun _ _ => rfl, fun _ => rfl⟩
  · intro useSS junk samples
    have h := SPItdk.decode_byteCount useSS junk samples
    constructor
    · rw [Nat.le_div_iff_mul_le (by norm_num)]
      split_ifs at h <;> omega
    · intro hst
      rw [if_pos hst] at h
      exact h
  · intro junk samples
    have h := SPItdkSS.decode_rowCount junk samples
    constructor
    · rw [Nat.le_div_iff_mul_le (by norm_num)]
      split_ifs at h <;> omega
    · intro hst
      rw [if_pos hst] at h
      exact h

/-- C14, at the input of the spec's fourth scenario: the stream ends at bit
index 3 and no byte row has been appended, in either decoder. -/
theorem C14_no_partial_flush_witness :
    (8 * byteCount (SPItdk.decode 0 ⟨.INVALID, 9, 9, 9, 9, 9, 9, 9, 9, 9⟩
        [⟨1, 1, 1, 0, 0⟩, ⟨2, 0, 0, 0, 0⟩, ⟨3, 1, 1, 0, 0⟩, ⟨4, 0, 0, 0, 0⟩, ⟨5, 1, 1, 0, 0⟩]).2 +
      (SPItdk.decode 0 ⟨.INVALID, 9, 9, 9, 9, 9, 9, 9, 9, 9⟩
        [⟨1, 1, 1, 0, 0⟩, ⟨2, 0, 0, 0, 0⟩, ⟨3, 1, 1, 0, 0⟩, ⟨4, 0, 0, 0, 0⟩, ⟨5, 1, 1, 0, 0⟩]).1.pos
        ≤ clockHighCount
        [⟨1, 1, 1, 0, 0⟩, ⟨2, 0, 0, 0, 0⟩, ⟨3, 1, 1, 0, 0⟩, ⟨4, 0, 0, 0, 0⟩, ⟨5, 1, 1, 0, 0⟩]) ∧
    (8 * (dataStream (SPItdkSS.decode ⟨.INVALID, 9, 9, 9, 9, 9, 9, 9⟩
        [⟨0, 0, 0, 0, 0⟩, ⟨1, 1, 1, 0, 0⟩, ⟨2, 1, 1, 0, 0⟩, ⟨3, 1, 1, 0, 0⟩]).2).length +
      (SPItdkSS.decode ⟨.INVALID, 9, 9, 9, 9, 9, 9, 9⟩
        [⟨0, 0, 0, 0, 0⟩, ⟨1, 1, 1, 0, 0⟩, ⟨2, 1, 1, 0, 0⟩, ⟨3, 1, 1, 0, 0⟩]).1.pos
        ≤ clockHighCount
        [⟨0, 0, 0, 0, 0⟩, ⟨1, 1, 1, 0, 0⟩, ⟨2, 1, 1, 0, 0⟩, ⟨3, 1, 1, 0, 0⟩]) :=
  ⟨(C14_no_partial_flush.1 0 _ _).2 (by decide), (C14_no_partial_flush.2.1 _ _).2 (by decide)⟩

/-- C15 (amended): `newDecoder` of `SPI-tdk.c` returns phase `IDLE`, stored SS
1, both stored clock levels 0 and time 0; `newDecoder` of `SPI-tdk_SS.c`
returns phase `IDLE`, stored SS 1, stored clock level 0 and stored data-line
levels `mosi = 1`, `miso = 1`. -/
theorem C15_newDecoder :
    (∀ junk : SPItdk.decoder,
      (SPItdk.newDecoder junk).state = .IDLE ∧ (SPItdk.newDecoder junk).ss = 1 ∧
      (SPItdk.newDecoder junk).sck = 0 ∧ (SPItdk.newDecoder junk).sckPrev = 0 ∧
      (SPItdk.newDecoder junk).time = 0) ∧
    (∀ junk : SPItdkSS.decoder,
      (SPItdkSS.newDecoder junk).state = .IDLE ∧ (SPItdkSS.newDecoder junk).ss = 1 ∧
      (SPItdkSS.newDecoder junk).sck = 0 ∧ (SPItdkSS.newDecoder junk).mosi = 1 ∧
      (SPItdkSS.newDecoder junk).miso = 1) :=
  ⟨fun _ => ⟨rfl, rfl, rfl, rfl, rfl⟩, fun _ => ⟨rfl, rfl, rfl, rfl, rfl⟩⟩

/-- C15, as stated, fails: `newDecoder` of `SPI-tdk_SS.c` stores data-line
levels 1, not 0, even on zeroed memory. -/
theorem C15_counterexample :
    ¬ ((SPItdkSS.newDecoder ⟨.IDLE, 0, 0, 0, 0, 0, 0, 0⟩).mosi = 0 ∧
       (SPItdkSS.newDecoder ⟨.IDLE, 0, 0, 0, 0, 0, 0, 0⟩).miso = 0) := by
  decide

/-- C16: in `SPI-tdk.c`, for samples whose SCK (with `useSS = 0`) or SS (with
`useSS = 1`) is 0 or 1, every state reached from the initial state has phase
`IDLE` exactly when both stored clock levels are 0 (`useSS = 0`), or exactly
when the stored SS is 1 (`useSS = 1`); so every start condition detected by a
call that is not filtered appends `"START"`, and the event stream strictly
alternates `"START"`, `"STOP"`, beginning with `"START"`.  Every call appends
at most one event. -/
theorem C16_phase_and_alternation :
    (∀ (junk : SPItdk.decoder) (samples : List Sample), (∀ x ∈ samples, x.sck ≤ 1) →
      ((SPItdk.decode 0 junk samples).1.state = .IDLE ↔
        (SPItdk.decode 0 junk samples).1.sckPrev = 0 ∧ (SPItdk.decode 0 junk samples).1.sck = 0) ∧
      (∀ s : Sample, ¬ SPItdk.isFiltered (SPItdk.decode 0 junk samples).1 s →
        SPItdk.isStart (SPItdk.decode 0 junk samples).1 s 0 →
          SPItdk.startRow s.time ∈ (SPItdk.handleState (SPItdk.decode 0 junk samples).1 s 0).2) ∧
      Alternates (eventStream (SPItdk.decode 0 junk samples).2)) ∧
    (∀ (junk : SPItdk.decoder) (samples : List Sample), (∀ x ∈ samples, x.ss ≤ 1) →
      ((SPItdk.decode 1 junk samples).1.state = .IDLE ↔
        (SPItdk.decode 1 junk samples).1.ss = 1) ∧
      (∀ s : Sample, ¬ SPItdk.isFiltered (SPItdk.decode 1 junk samples).1 s →
        SPItdk.isStart (SPItdk.decode 1 junk samples).1 s 1 →
          SPItdk.startRow s.time ∈ (SPItdk.handleState (SPItdk.decode 1 junk samples).1 s 1).2) ∧
      Alternates (eventStream (SPItdk.decode 1 junk samples).2)) ∧
    (∀ (d : SPItdk.decoder) (s : Sample) (useSS : Int),
      (eventStream (SPItdk.handleState d s useSS).2).length ≤ 1) := by
  refine ⟨?_, ?_, fun d s useSS => (SPItdk.handleState_rows_le d s useSS).2⟩
  · intro junk samples hs
    obtain ⟨hc, ha⟩ := SPItdk.decode_clockPhase junk samples hs
    refine ⟨hc.1, ?_, ha.1⟩
    intro s hf h
    have h' : (SPItdk.decode 0 junk samples).1.sckPrev = 0 ∧
        (SPItdk.decode 0 junk samples).1.sck = 0 ∧ s.sck = 1 := by
      simpa [SPItdk.isStart] using h
    exact SPItdk.handleState_start_row _ s 0 hf h (hc.1.2 ⟨h'.1, h'.2.1⟩)
  · intro junk samples hs
    obtain ⟨hc, ha⟩ := SPItdk.decode_selectPhase junk samples hs
    refine ⟨hc.1, ?_, ha.1⟩
    intro s hf h
    have h' : (SPItdk.decode 1 junk samples).1.ss = 1 ∧ s.ss = 0 := by
      simpa [SPItdk.isStart] using h
    exact SPItdk.handleState_start_row _ s 1 hf h (hc.1.2 h'.1)

/-- C16, at concrete inputs: a start, a stop and a restart, by the clock
(`useSS = 0`) and by select (`useSS = 1`). -/
theorem C16_phase_and_alternation_witness :
    Alternates (eventStream (SPItdk.decode 0 ⟨.INVALID, 9, 9, 9, 9, 9, 9, 9, 9, 9⟩
      [⟨1, 1, 1, 0, 0⟩, ⟨2, 0, 0, 0, 0⟩, ⟨3, 0, 0, 0, 0⟩, ⟨4, 1, 1, 0, 0⟩]).2) ∧
    Alternates (eventStream (SPItdk.decode 1 ⟨.INVALID, 9, 9, 9, 9, 9, 9, 9, 9, 9⟩
      [⟨1, 1, 1, 0, 0⟩, ⟨2, 0, 0, 0, 1⟩, ⟨3, 1, 1, 0, 0⟩]).2) :=
  ⟨(C16_phase_and_alternation.1 _ _ (by decide)).2.2,
   (C16_phase_and_alternation.2.1 _ _ (by decide)).2.2⟩

/-- C17: in `SPI-tdk.c` with `useSS = 0`, from the initial state, for every
sample sequence with SCK levels 0 or 1 in which no clock-low sample stands alone
between two clock-high samples (every low run between two highs has length at
least 2), no byte row is appended however many clock pulses occur, and after
every prefix of the sequence the bit index is at most 1 while reading. -/
theorem C17_slow_clock_no_bytes (junk : SPItdk.decoder) (samples : List Sample)
    (hbit : ∀ x ∈ samples, x.sck ≤ 1)
    (hlow : ∀ a x y z b, samples = a ++ x :: y :: z :: b →
      ¬ (x.sck = 1 ∧ y.sck = 0 ∧ z.sck = 1)) :
    (∀ r ∈ dataStream (SPItdk.decode 0 junk samples).2, ¬ r.isByte) ∧
    (∀ pre post, samples = pre ++ post →
      (SPItdk.decode 0 junk pre).1.state = .READ_DATA → (SPItdk.decode 0 junk pre).1.pos ≤ 1) := by
  constructor
  · have h := (SPItdk.decode_slowClockInv junk samples hbit hlow).2.2.2.2
    intro r hr hy
    have : 0 < byteCount (SPItdk.decode 0 junk samples).2 := by
      unfold byteCount
      exact List.countP_pos_iff.2 ⟨r, hr, by simpa using hy⟩
    omega
  · intro pre post hsplit
    subst hsplit
    exact (SPItdk.decode_slowClockInv junk pre (fun x hx => hbit x (by simp [hx]))
      (noShortLow_initial pre post hlow)).2.2.2.1

/-- C17, at a concrete input: three clock pulses sampled four times per period
(high, high, low, low) give no byte row, and after the fifth sample the bit
index is at most 1. -/
theorem C17_slow_clock_no_bytes_witness :
    byteCount (SPItdk.decode 0 ⟨.INVALID, 9, 9, 9, 9, 9, 9, 9, 9, 9⟩
      [⟨1, 1, 1, 1, 0⟩, ⟨2, 1, 1, 1, 0⟩, ⟨3, 0, 1, 1, 0⟩, ⟨4, 0, 1, 1, 0⟩,
       ⟨5, 1, 1, 1, 0⟩, ⟨6, 1, 1, 1, 0⟩, ⟨7, 0, 1, 1, 0⟩, ⟨8, 0, 1, 1, 0⟩,
       ⟨9, 1, 1, 1, 0⟩, ⟨10, 1, 1, 1, 0⟩, ⟨11, 0, 1, 1, 0⟩, ⟨12, 0, 1, 1, 0⟩]).2 = 0 ∧
    (SPItdk.decode 0 ⟨.INVALID, 9, 9, 9, 9, 9, 9, 9, 9, 9⟩
      [⟨1, 1, 1, 1, 0⟩, ⟨2, 1, 1, 1, 0⟩, ⟨3, 0, 1, 1, 0⟩, ⟨4, 0, 1, 1, 0⟩,
       ⟨5, 1, 1, 1, 0⟩]).1.pos ≤ 1 :=
  ⟨List.countP_eq_zero.2 (fun r hr => by
      simpa using (C17_slow_clock_no_bytes ⟨.INVALID, 9, 9, 9, 9, 9, 9, 9, 9, 9⟩ _ (by decide)
        (noShortLow_of_check _ (by decide))).1 r hr),
   (C17_slow_clock_no_bytes ⟨.INVALID, 9, 9, 9, 9, 9, 9, 9, 9, 9⟩
      [⟨1, 1, 1, 1, 0⟩, ⟨2, 1, 1, 1, 0⟩, ⟨3, 0, 1, 1, 0⟩, ⟨4, 0, 1, 1, 0⟩,
       ⟨5, 1, 1, 1, 0⟩, ⟨6, 1, 1, 1, 0⟩, ⟨7, 0, 1, 1, 0⟩, ⟨8, 0, 1, 1, 0⟩,
       ⟨9, 1, 1, 1, 0⟩, ⟨10, 1, 1, 1, 0⟩, ⟨11, 0, 1, 1, 0⟩, ⟨12, 0, 1, 1, 0⟩]
      (by decide) (noShortLow_of_check _ (by decide))).2
      [⟨1, 1, 1, 1, 0⟩, ⟨2, 1, 1, 1, 0⟩, ⟨3, 0, 1, 1, 0⟩, ⟨4, 0, 1, 1, 0⟩, ⟨5, 1, 1, 1, 0⟩]
      [⟨6, 1, 1, 1, 0⟩, ⟨7, 0, 1, 1, 0⟩, ⟨8, 0, 1, 1, 0⟩,
       ⟨9, 1, 1, 1, 0⟩, ⟨10, 1, 1, 1, 0⟩, ⟨11, 0, 1, 1, 0⟩, ⟨12, 0, 1, 1, 0⟩] rfl (by decide)⟩

/-- C18: in `SPI-tdk.c` with `useSS = 1` there is a sample sequence in which
SS is released (samples 10 and 11) and asserted again (sample 12) between two
groups of four clock pulses, while SCK stays low, for which the rows appended
are one `"START"` and one byte row only: no `"STOP"`, no second `"START"`, and
the byte 0xAF combines the four bits captured before the release (1,0,1,0) with
the four captured after the new assertion (1,1,1,1). -/
theorem C18_select_glitch_merges_bytes :
    glitchSamples.map Sample.ss = [0, 0, 0, 0, 0, 0, 0, 0, 0, 1, 1, 0, 0, 0, 0, 0, 0, 0, 0] ∧
    glitchSamples.map Sample.sck = [1, 0, 1, 0, 1, 0, 1, 0, 0, 0, 0, 0, 1, 0, 1, 0, 1, 0, 1] ∧
    ∀ junk : SPItdk.decoder,
      (SPItdk.decode 1 junk glitchSamples).2 =
        [.event ⟨1, "START", some .lime⟩, .data ⟨1, 175, 0, some .yellow, some .lavender⟩] := by
  refine ⟨rfl, rfl, fun junk => ?_⟩
  simp [SPItdk.decode, SPItdk.run, SPItdk.handleState_eq, SPItdk.isFiltered, SPItdk.isStop,
    SPItdk.isStart, SPItdk.newDecoder, glitchSamples, SPItdk.startRow, orBit]

/-- C19: in `SPI-tdk.c`, a call that appends a `"STOP"` event appends exactly
the zero data row (MOSI 0, MISO 0) and the `"STOP"` event, both at the sample's
time; so for every sample sequence the number of data rows is the number of
byte rows plus the number of `"STOP"` events, and every data row that is not a
byte row has both lane values 0 and the time tag of a `"STOP"` event. -/
theorem C19_stop_data_rows :
    (∀ (d : SPItdk.decoder) (s : Sample) (useSS : Int) (e : EventRow),
      e ∈ eventStream (SPItdk.handleState d s useSS).2 → e.text = "STOP" →
        (SPItdk.handleState d s useSS).2 =
          [.data ⟨s.time, 0, 0, some .scarlet, some .scarlet⟩,
           .event ⟨s.time, "STOP", some .scarlet⟩]) ∧
    (∀ (useSS : Int) (junk : SPItdk.decoder) (samples : List Sample),
      (dataStream (SPItdk.decode useSS junk samples).2).length =
        byteCount (SPItdk.decode useSS junk samples).2 +
          stopCount (SPItdk.decode useSS junk samples).2) ∧
    (∀ (useSS : Int) (junk : SPItdk.decoder) (samples : List Sample),
      ∀ r ∈ dataStream (SPItdk.decode useSS junk samples).2, ¬ r.isByte →
        r.mosi = 0 ∧ r.miso = 0 ∧
          (⟨r.time, "STOP", some .scarlet⟩ : EventRow) ∈
            eventStream (SPItdk.decode useSS junk samples).2) :=
  ⟨SPItdk.handleState_stop_rows, SPItdk.decode_lane_count, SPItdk.decode_zero_rows⟩

/-- C19, at concrete inputs: a clock stop (`useSS = 0`) and a select stop
(`useSS = 1`). -/
theorem C19_stop_data_rows_witness :
    (SPItdk.handleState ⟨.READ_DATA, 0, 1, 0, 0, 0, 1, 128, 0, 1⟩ ⟨3, 0, 0, 0, 0⟩ 0).2 =
      [.data ⟨3, 0, 0, some .scarlet, some .scarlet⟩, .event ⟨3, "STOP", some .scarlet⟩] ∧
    (SPItdk.handleState ⟨.READ_DATA, 1, 0, 0, 0, 0, 1, 128, 0, 1⟩ ⟨3, 0, 0, 0, 1⟩ 1).2 =
      [.data ⟨3, 0, 0, some .scarlet, some .scarlet⟩, .event ⟨3, "STOP", some .scarlet⟩] :=
  ⟨C19_stop_data_rows.1 _ _ 0 ⟨3, "STOP", some .scarlet⟩ (by decide) rfl,
   C19_stop_data_rows.1 _ _ 1 ⟨3, "STOP", some .scarlet⟩ (by decide) rfl⟩

end SPI
